import Mathlib

/-!
BLE beacon scanner (`src/logger/ble_beacon_scan.c`)

A shallow embedding of the scanner's command functions, option `-t`, start
sequence, receive loop, advertising-report decoding loop and final disable-scan
step, followed by theorems about them.

Conventions of the embedding.

* Bytes are natural numbers; every byte read goes through `rd`, which reduces
  modulo 256.
* The receive buffer `buf` is seen as memory addressed from its first byte:
  `mem i` is the byte at `buf + i`.  The C code performs no bounds check, so a
  read at an index beyond the `len` received bytes returns whatever the memory
  holds there (bytes left from an earlier event, or memory following the
  array).  The embedding keeps this: `mem` is total and arbitrary.
* Constants, struct layouts and error numbers that come from the BlueZ headers
  (`<bluetooth/hci.h>`), which are not part of the repository, are collected
  in `HciDefs` and taken as a parameter.
* `time(NULL)` is a sequence of readings `time : Nat → Int`; a counter of the
  calls made so far is threaded through the code (`tick`).
* `read` is a sequence of results `read : Nat → ReadResult`, one per call; each
  result carries the value of the flag `signal_received` at that moment.
* What the program does to the outside (commands sent, device closed, reads,
  records printed, error messages) is collected in order in a list of `Event`.
-/

namespace BleBeaconScan

/-! ## Header-provided constants and layouts -/

/-- Constants and struct layouts the source takes from `<bluetooth/hci.h>`
and from the C library headers. -/
structure HciDefs where
  /-- The macro `HCI_EVENT_HDR_SIZE`. -/
  HCI_EVENT_HDR_SIZE : Nat
  /-- The macro `EVT_LE_ADVERTISING_REPORT`. -/
  EVT_LE_ADVERTISING_REPORT : Nat
  /-- Byte offset of `subevent` in `evt_le_meta_event`. -/
  subevent_off : Nat
  /-- Byte offset of `data` in `evt_le_meta_event`. -/
  meta_data_off : Nat
  /-- Byte offset of `bdaddr` in `le_advertising_info`. -/
  bdaddr_off : Nat
  /-- Byte offset of `length` in `le_advertising_info`. -/
  length_off : Nat
  /-- Byte offset of `data` in `le_advertising_info`. -/
  data_off : Nat
  /-- The macro `OGF_LE_CTL`. -/
  OGF_LE_CTL : Nat
  /-- The macro `OCF_LE_SET_SCAN_PARAMETERS`. -/
  OCF_LE_SET_SCAN_PARAMETERS : Nat
  /-- The macro `OCF_LE_SET_SCAN_ENABLE`. -/
  OCF_LE_SET_SCAN_ENABLE : Nat
  /-- The macro `OCF_LE_SET_EVENT_MASK`. -/
  OCF_LE_SET_EVENT_MASK : Nat
  /-- The macro `LE_SET_SCAN_PARAMETERS_CP_SIZE`. -/
  LE_SET_SCAN_PARAMETERS_CP_SIZE : Int
  /-- The macro `LE_SET_SCAN_ENABLE_CP_SIZE`. -/
  LE_SET_SCAN_ENABLE_CP_SIZE : Int
  /-- The macro `LE_SET_EVENT_MASK_CP_SIZE`. -/
  LE_SET_EVENT_MASK_CP_SIZE : Int
  /-- The error number `EINTR` of `<errno.h>`. -/
  EINTR : Int
  /-- The error number `EAGAIN` of `<errno.h>`. -/
  EAGAIN : Int
  /-- The signal number `SIGINT` of `<signal.h>`. -/
  SIGINT : Int

/-- The values of BlueZ's `hci.h` and of Linux: packed `evt_le_meta_event`
`{subevent; data[0]}` and packed `le_advertising_info`
`{evt_type; bdaddr_type; bdaddr; length; data[0]}`. -/
def bluez : HciDefs where
  HCI_EVENT_HDR_SIZE := 2
  EVT_LE_ADVERTISING_REPORT := 0x02
  subevent_off := 0
  meta_data_off := 1
  bdaddr_off := 2
  length_off := 8
  data_off := 9
  OGF_LE_CTL := 0x08
  OCF_LE_SET_SCAN_PARAMETERS := 0x000B
  OCF_LE_SET_SCAN_ENABLE := 0x000C
  OCF_LE_SET_EVENT_MASK := 0x0001
  LE_SET_SCAN_PARAMETERS_CP_SIZE := 7
  LE_SET_SCAN_ENABLE_CP_SIZE := 2
  LE_SET_EVENT_MASK_CP_SIZE := 8
  EINTR := 4
  EAGAIN := 11
  SIGINT := 2

/-- Modelled from the spec: the advertising-report record layout
"address-type(1) + address(6) + length(1) + payload(length) +
signal-strength(1, signed)", that is a `le_advertising_info` whose fixed header
is 8 bytes, the address at byte 1, the length at byte 7 and the payload at
byte 8.  All other values are those of `bluez`. -/
def specLayout : HciDefs :=
  { bluez with bdaddr_off := 1, length_off := 7, data_off := 8 }

/-! ## Memory and records -/

/-- Read of one `uint8_t` at index `i` of the memory that starts at `buf`. -/
def rd (mem : Nat → Nat) (i : Nat) : Nat := mem i % 256

/-- Memory whose first bytes are the given list (zero elsewhere); used to write
down concrete buffers. -/
def memOf (l : List Nat) : Nat → Nat := fun i => l.getD i 0

/-- The C conversion `(int8_t)v` of a byte. -/
def int8_t (v : Nat) : Int :=
  if v % 256 < 128 then ((v % 256 : Nat) : Int) else ((v % 256 : Nat) : Int) - 256

/-- One line handed to the sink by `fprintf(..., "%s %d\n", addr, rssi)`. -/
structure Record where
  addr : String
  rssi : Int
deriving DecidableEq, Repr

/-- One uppercase hexadecimal digit. -/
def hexDigit (n : Nat) : Char :=
  if n < 10 then Char.ofNat (48 + n) else Char.ofNat (55 + n)

/-- The conversion `%2.2X` of a byte: two uppercase hexadecimal digits. -/
def hex2 (b : Nat) : List Char := [hexDigit (b % 256 / 16), hexDigit (b % 16)]

/-- Modelled from the spec: the library function `ba2str`, which is not part
of the repository.  The six address bytes, given in on-wire order
`b0 .. b5`, are printed in reversed order as colon-separated two-digit
uppercase hexadecimal numbers. -/
def ba2str (b0 b1 b2 b3 b4 b5 : Nat) : String :=
  String.mk (hex2 b5 ++ ':' :: hex2 b4 ++ ':' :: hex2 b3 ++ ':' :: hex2 b2 ++ ':' ::
    hex2 b1 ++ ':' :: hex2 b0)

/-! ## `check_stop_time` -/

/-- The function `check_stop_time`; `now` is the value returned by
`time(NULL)`. -/
def check_stop_time (end_time : Int) (now : Int) : Int :=
  if now = -1 then 0
  else if now ≥ end_time then 1
  else 0

/-! ## The report-decoding loop of `main` -/

/-- Body of the `while (reports_count--)` loop up to the cursor update, for
the report at `offset`: the record printed and the new value of `offset`. -/
def reportStep (D : HciDefs) (mem : Nat → Nat) (offset : Nat) : Record × Nat :=
  let bdaddr := offset + D.bdaddr_off
  let length := rd mem (offset + D.length_off)
  let data := offset + D.data_off
  let addr := ba2str (rd mem bdaddr) (rd mem (bdaddr + 1)) (rd mem (bdaddr + 2))
    (rd mem (bdaddr + 3)) (rd mem (bdaddr + 4)) (rd mem (bdaddr + 5))
  (⟨addr, int8_t (rd mem (data + length))⟩, data + length + 2)

/-- The loop `while (reports_count--) { ... }` of `main`.

`reports_count` is the `uint8_t` counter, post-decremented modulo 256;
`running_time` and `end_time` are the deadline variables of `main`; `tick`
counts the calls of `time(NULL)` made so far.  The result is the list of
records printed, the number of clock calls afterwards, or `none` when the
fuel is used up before the loop ends. -/
def reportLoop (D : HciDefs) (mem : Nat → Nat) (running_time : Nat) (end_time : Int)
    (time : Nat → Int) : Nat → Nat → Nat → Nat → Option (List Record × Nat)
  | 0, _, _, _ => none
  | fuel + 1, reports_count, offset, tick =>
    let c := reports_count
    let reports_count := (reports_count + 255) % 256
    if c = 0 then some ([], tick)
    else
      let (r, offset) := reportStep D mem offset
      if running_time ≠ 0 then
        if check_stop_time end_time (time tick) ≠ 0 then some ([r], tick + 1)
        else
          match reportLoop D mem running_time end_time time fuel reports_count offset (tick + 1) with
          | none => none
          | some (rs, t) => some (r :: rs, t)
      else
        match reportLoop D mem running_time end_time time fuel reports_count offset tick with
        | none => none
        | some (rs, t) => some (r :: rs, t)

/-- Lines 246-267 of `main`: what one successful `read` of `len` bytes makes
the program print.  `mem` is the buffer memory after the read. -/
def decodeStep (D : HciDefs) (mem : Nat → Nat) (len : Int) (running_time : Nat)
    (end_time : Int) (time : Nat → Int) (fuel : Nat) (tick : Nat) :
    Option (List Record × Nat) :=
  if len ≥ (D.HCI_EVENT_HDR_SIZE : Int) then
    let meta_event := D.HCI_EVENT_HDR_SIZE + 1
    if rd mem (meta_event + D.subevent_off) = D.EVT_LE_ADVERTISING_REPORT then
      let reports_count := rd mem (meta_event + D.meta_data_off)
      let offset := meta_event + D.meta_data_off + 1
      reportLoop D mem running_time end_time time fuel reports_count offset tick
    else some ([], tick)
  else some ([], tick)

/-! ## One iteration of the receive loop -/

/-- What `read(device, buf, sizeof(buf))` did: its return value, `errno` when
it failed, the value of the flag `signal_received` seen by the test of line
237, and the buffer memory after the call. -/
structure ReadResult where
  len : Int
  errno : Int
  signal_received : Int
  mem : Nat → Nat

/-- How one iteration of `while (1)` ends. -/
inductive Next where
  /-- The iteration ends normally or by `continue`: another `read` follows. -/
  | next_read
  /-- The statement `goto done` after a failed `read`. -/
  | goto_done
  /-- The statement `break` of line 269 (deadline reached). -/
  | break_loop
deriving DecidableEq, Repr

/-- One iteration of the loop `while (1)` of `main` (lines 236-270): the
records printed, the number of clock calls afterwards and how the iteration
ends. -/
def loopStep (D : HciDefs) (running_time : Nat) (end_time : Int) (time : Nat → Int)
    (fuel : Nat) (r : ReadResult) (tick : Nat) : Option (List Record × Nat × Next) :=
  if r.len < 0 then
    if r.errno = D.EINTR ∧ r.signal_received = D.SIGINT then some ([], tick, Next.goto_done)
    else if r.errno = D.EAGAIN ∨ r.errno = D.EINTR then some ([], tick, Next.next_read)
    else some ([], tick, Next.goto_done)
  else
    match decodeStep D r.mem r.len running_time end_time time fuel tick with
    | none => none
    | some (rs, tick) =>
      if running_time ≠ 0 then
        if check_stop_time end_time (time tick) ≠ 0 then some (rs, tick + 1, Next.break_loop)
        else some (rs, tick + 1, Next.next_read)
      else some (rs, tick, Next.next_read)

/-! ## Commands -/

/-- The fields of `struct hci_request` of `<bluetooth/hci_lib.h>`.  A pointer
is represented by what it points to: `P` for the command parameters, `S` for
the place of the response. -/
structure hci_request (P S : Type) where
  ogf : Nat
  ocf : Nat
  event : Int
  cparam : P
  clen : Int
  rparam : S
  rlen : Int
deriving DecidableEq, Repr

/-- The function `ble_hci_request`: all fields zero (`memset`), then the six
assignments. -/
def ble_hci_request {P S : Type} (D : HciDefs) (ocf : Nat) (clen : Int) (status : S)
    (cparam : P) : hci_request P S :=
  { ogf := D.OGF_LE_CTL % 65536
    ocf := ocf % 65536
    event := 0
    cparam := cparam
    clen := clen
    rparam := status
    rlen := 1 }

/-- Modelled from the spec: the struct `le_set_scan_enable_cp`, "enable(1) +
filter-duplicates(1)". -/
structure le_set_scan_enable_cp where
  enable : Nat
  filter_dup : Nat
deriving DecidableEq, Repr

/-- Modelled from the spec: the struct `le_set_scan_parameters_cp`, "type(1) +
interval(2) + window(2) + own-address-type(1) + filter-policy(1)"; the two
16-bit fields hold the value produced by `htobs`. -/
structure le_set_scan_parameters_cp where
  type : Nat
  interval : Nat
  window : Nat
  own_bdaddr_type : Nat
  filter : Nat
deriving DecidableEq, Repr

/-- Modelled from the spec: the struct `le_set_event_mask_cp`, an array
`mask` of 8 bytes. -/
structure le_set_event_mask_cp where
  mask : List Nat
deriving DecidableEq, Repr

/-- The bytes of a 16-bit value in Bluetooth (little-endian) order. -/
def le16 (v : Nat) : List Nat := [v % 256, v / 256 % 256]

/-- The bytes in memory of a `le_set_scan_enable_cp`. -/
def le_set_scan_enable_cp.bytes (c : le_set_scan_enable_cp) : List Nat :=
  [c.enable % 256, c.filter_dup % 256]

/-- The bytes in memory of a `le_set_scan_parameters_cp`. -/
def le_set_scan_parameters_cp.bytes (c : le_set_scan_parameters_cp) : List Nat :=
  [c.type % 256] ++ le16 c.interval ++ le16 c.window ++
    [c.own_bdaddr_type % 256, c.filter % 256]

/-- The bytes in memory of a `le_set_event_mask_cp`. -/
def le_set_event_mask_cp.bytes (c : le_set_event_mask_cp) : List Nat :=
  c.mask.map (fun b => b % 256)

/-- A request whose parameter pointer is represented by the bytes of the
parameter struct and whose response place is the local `status`. -/
abbrev Request := hci_request (List Nat) Unit

/-- What the program does to the outside, in order. -/
inductive Event where
  /-- The call `hci_send_req(device, &rq, timeout)`. -/
  | send (device : Int) (rq : Request) (timeout : Int)
  /-- The call `hci_close_dev(device)`. -/
  | close_dev (device : Int)
  /-- The call `perror(msg)`. -/
  | perror (msg : String)
  /-- The call `read(device, buf, sizeof(buf))` of the receive loop. -/
  | read (device : Int)
  /-- The call `fprintf(..., "%s %d\n", addr, rssi)` that prints one record. -/
  | print (r : Record)
deriving DecidableEq, Repr

/-- What `hci_send_req` gives back: its return value and the byte it stored
in `status`. -/
structure SendResult where
  ret : Int
  status : Nat
deriving DecidableEq, Repr

/-- The behaviour of the transport: the result of `hci_send_req` for a
request, given everything the program did before. -/
abbrev Transport := List Event → Request → SendResult

/-- The requests sent, in order. -/
def sentRequests : List Event → List Request
  | [] => []
  | Event.send _ rq _ :: es => rq :: sentRequests es
  | _ :: es => sentRequests es

/-- The loop `for (i = 0; i < 8; i++) event_mask_cp.mask[i] = 0xFF;`, started
at `i`, on the array `mask`. -/
def fillMask : Nat → Nat → List Nat → List Nat
  | 0, _, mask => mask
  | fuel + 1, i, mask => if i < 8 then fillMask fuel (i + 1) (mask.set i 0xFF) else mask

/-- The request built by `le_scan_enable`. -/
def scanEnableRequest (D : HciDefs) (enable : Nat) : Request :=
  let scan_cp : le_set_scan_enable_cp := { enable := enable % 256, filter_dup := 0x00 }
  ble_hci_request D D.OCF_LE_SET_SCAN_ENABLE D.LE_SET_SCAN_ENABLE_CP_SIZE () scan_cp.bytes

/-- The request built by `le_set_scan_parameters`; `htobs` is the identity on
the 16-bit value, whose bytes are laid out by `le16`. -/
def scanParametersRequest (D : HciDefs) : Request :=
  let scan_params_cp : le_set_scan_parameters_cp :=
    { type := 0x00, interval := 0x0010, window := 0x0010, own_bdaddr_type := 0x00,
      filter := 0x00 }
  ble_hci_request D D.OCF_LE_SET_SCAN_PARAMETERS D.LE_SET_SCAN_PARAMETERS_CP_SIZE ()
    scan_params_cp.bytes

/-- The request built by `le_set_reports_mask`. -/
def eventMaskRequest (D : HciDefs) : Request :=
  let event_mask_cp : le_set_event_mask_cp := { mask := fillMask 9 0 (List.replicate 8 0) }
  ble_hci_request D D.OCF_LE_SET_EVENT_MASK D.LE_SET_EVENT_MASK_CP_SIZE () event_mask_cp.bytes

/-- The function `le_scan_enable`: return value and the events it adds. -/
def le_scan_enable (D : HciDefs) (hci_send_req : Transport) (tr : List Event) (device : Int)
    (enable : Nat) : Int × List Event :=
  let request := scanEnableRequest D enable
  let ret := (hci_send_req tr request).ret
  let tr := tr ++ [Event.send device request 1000]
  if ret < 0 then
    let tr := tr ++ [Event.close_dev device]
    if enable % 256 = 0x01 then (-1, tr ++ [Event.perror "Failed to enable scan"])
    else if enable % 256 = 0x00 then (-1, tr ++ [Event.perror "Failed to disable scan"])
    else (-1, tr)
  else (0, tr)

/-- The function `le_set_scan_parameters`. -/
def le_set_scan_parameters (D : HciDefs) (hci_send_req : Transport) (tr : List Event)
    (device : Int) : Int × List Event :=
  let scan_params_rq := scanParametersRequest D
  let ret := (hci_send_req tr scan_params_rq).ret
  let tr := tr ++ [Event.send device scan_params_rq 1000]
  if ret < 0 then
    (ret, tr ++ [Event.close_dev device, Event.perror "Failed to set scan parameters data"])
  else (0, tr)

/-- The function `le_set_reports_mask`. -/
def le_set_reports_mask (D : HciDefs) (hci_send_req : Transport) (tr : List Event)
    (device : Int) : Int × List Event :=
  let set_mask_rq := eventMaskRequest D
  let ret := (hci_send_req tr set_mask_rq).ret
  let tr := tr ++ [Event.send device set_mask_rq 1000]
  if ret < 0 then
    (ret, tr ++ [Event.close_dev device, Event.perror "Failed to set event mask"])
  else (0, tr)

/-! ## The start of `main` -/

/-- Where `main` stands after its start (lines 186-233). -/
inductive Started where
  /-- The statement `return code`: the receive loop was not entered. -/
  | returned (code : Int)
  /-- The statement `goto done` of line 231: the receive loop was not entered. -/
  | goto_done
  /-- The loop `while (1)` is entered. -/
  | receive_loop
deriving DecidableEq, Repr

/-- Lines 186-233 of `main`.  `device` is the value returned by
`hci_open_dev`, `setsockopt` the value returned by `setsockopt`,
`stdout_print` the variable of that name and `fopen_ok` whether `fopen`
returned a non-null pointer. -/
def main_start (D : HciDefs) (hci_send_req : Transport) (device : Int) (setsockopt : Int)
    (stdout_print : Nat) (fopen_ok : Bool) : Started × List Event :=
  if device < 0 then (Started.returned 0, [Event.perror "Failed to open HCI device"])
  else
    let (r, tr) := le_set_scan_parameters D hci_send_req [] device
    if r ≠ 0 then (Started.returned (-1), tr)
    else
      let (r, tr) := le_set_reports_mask D hci_send_req tr device
      if r ≠ 0 then (Started.returned (-1), tr)
      else
        let (r, tr) := le_scan_enable D hci_send_req tr device 0x001
        if r ≠ 0 then (Started.returned (-1), tr)
        else if setsockopt < 0 then
          (Started.returned 0,
            tr ++ [Event.close_dev device, Event.perror "Could not set socket options"])
        else if stdout_print = 0 then
          if fopen_ok then (Started.receive_loop, tr)
          else (Started.goto_done, tr ++ [Event.perror "Could not open output file for writing"])
        else (Started.receive_loop, tr)

/-- The records of `n` successive reports read from `offset` on, each at the
cursor left by the one before. -/
def recordsFrom (D : HciDefs) (mem : Nat → Nat) : Nat → Nat → List Record
  | 0, _ => []
  | n + 1, offset => (reportStep D mem offset).1 :: recordsFrom D mem n (reportStep D mem offset).2

/-- Value of an uppercase hexadecimal digit; `none` for every other
character. -/
def hexVal (c : Char) : Option Nat :=
  if '0' ≤ c ∧ c ≤ '9' then some (c.toNat - 48)
  else if 'A' ≤ c ∧ c ≤ 'F' then some (c.toNat - 55)
  else none

/-! ## Concrete buffers -/

/-- A received event of 23 bytes in the layout of `specLayout`: packet type,
event code, parameter length, subevent 0x02, count 2, then two reports
back-to-back, each address-type, six address bytes, length 0 and the
signal-strength byte (0xFE, then 0x0A). -/
def twoReportsSpec : List Nat :=
  [0x04, 0x3E, 20, 0x02, 2,
   0, 0x01, 0x02, 0x03, 0x04, 0x05, 0x06, 0, 0xFE,
   0, 0x0A, 0x0B, 0x0C, 0x0D, 0x0E, 0x0F, 0, 0x0A]

/-- The same two reports as a received event of 25 bytes in the layout of
`bluez`, where each report starts with an event-type byte. -/
def twoReportsBluez : List Nat :=
  [0x04, 0x3E, 22, 0x02, 2,
   0, 0, 0x01, 0x02, 0x03, 0x04, 0x05, 0x06, 0, 0xFE,
   0, 0, 0x0A, 0x0B, 0x0C, 0x0D, 0x0E, 0x0F, 0, 0x0A]

/-- The buffer after a `read` that returned the 3 bytes `04 3E 00`, when the
`read` before had returned a 15-byte event with one report: bytes 3 to 14 are
left from that earlier event. -/
def staleAfterShortRead : List Nat :=
  [0x04, 0x3E, 0x00,
   0x02, 1, 0, 0, 0x01, 0x02, 0x03, 0x04, 0x05, 0x06, 0, 0xFE]

/-- The buffer after a `read` that returned 14 bytes announcing one report
with payload length 0, cut before its signal-strength byte: byte 14 (0x7F) is
not among the received bytes. -/
def truncatedReport : List Nat :=
  [0x04, 0x3E, 0x0B, 0x02, 1, 0, 0, 0x01, 0x02, 0x03, 0x04, 0x05, 0x06, 0,
   0x7F]

/-- A received event of 16 bytes in the layout of `bluez` with one report of
payload length 1 whose signal-strength byte is 0xF6. -/
def oneReport : List Nat :=
  [0x04, 0x3E, 13, 0x02, 1, 0, 0, 0x1A, 0x2B, 0x3C, 0x4D, 0x5E, 0x6F, 1, 0xAA, 0xF6]

/-- A received event whose subevent byte is 0x01 (not an advertising report),
followed by the bytes of one report. -/
def otherSubevent : List Nat :=
  [0x04, 0x3E, 12, 0x01, 1, 0, 0, 0x01, 0x02, 0x03, 0x04, 0x05, 0x06, 0, 0xFE]

/-! ## Concrete transports -/

/-- The order of the commands of the start sequence of `main`. -/
def startOrder (D : HciDefs) : List Request :=
  [scanParametersRequest D, eventMaskRequest D, scanEnableRequest D 0x001]

/-- A transport on which every round trip completes (`hci_send_req` returns 0)
and the controller answers every command with the status 0x0C. -/
def rejectingTransport : Transport := fun _ _ => ⟨0, 0x0C⟩

/-- A transport whose second send fails: `hci_send_req` returns -1 once one
command has been sent, 0 before. -/
def failsOnSecond : Transport := fun tr _ =>
  if (sentRequests tr).length = 1 then ⟨-1, 0⟩ else ⟨0, 0⟩

/-! ## The receive loop and the end of `main` -/

/-- The loop `while (1)` of `main` (lines 235-271).  `read k` is what the
call number `k` of `read` does; `rfuel` is the fuel of each report loop.  The
result tells how the loop ended, how many calls of `read` were made, the
number of clock calls and the events so far; `none` when the fuel is used up
before the loop ends. -/
def recvLoop (D : HciDefs) (running_time : Nat) (end_time : Int) (time : Nat → Int)
    (read : Nat → ReadResult) (device : Int) (rfuel : Nat) :
    Nat → Nat → Nat → List Event → Option (Next × Nat × Nat × List Event)
  | 0, _, _, _ => none
  | fuel + 1, k, tick, tr =>
    match loopStep D running_time end_time time rfuel (read k) tick with
    | none => none
    | some (rs, tick, n) =>
      let tr := tr ++ Event.read device :: rs.map Event.print
      match n with
      | Next.next_read => recvLoop D running_time end_time time read device rfuel fuel (k + 1) tick tr
      | n => some (n, k + 1, tick, tr)

/-- The code after the label `done` (lines 273-285).  `output_file` tells
whether the variable of that name is non-null, `fclose_eof` whether `fclose`
returns `EOF`. -/
def main_done (D : HciDefs) (hci_send_req : Transport) (tr : List Event) (device : Int)
    (output_file : Bool) (fclose_eof : Bool) : Int × List Event :=
  let (r, tr) := le_scan_enable D hci_send_req tr device 0x00
  if r ≠ 0 then (-1, tr)
  else if output_file then
    if fclose_eof then (0, tr ++ [Event.perror "Could not close output file"])
    else (0, tr)
  else (0, tr)

/-- Lines 186-286 of `main`: the start, the receive loop and the code after
`done`.  The result is the value returned by `main` and everything it did;
`none` when the fuel is used up before the receive loop ends. -/
def main_body (D : HciDefs) (hci_send_req : Transport) (device setsockopt : Int)
    (stdout_print : Nat) (fopen_ok fclose_eof : Bool) (running_time : Nat) (end_time : Int)
    (time : Nat → Int) (read : Nat → ReadResult) (fuel rfuel : Nat) :
    Option (Int × List Event) :=
  match main_start D hci_send_req device setsockopt stdout_print fopen_ok with
  | (Started.returned code, tr) => some (code, tr)
  | (Started.goto_done, tr) => some (main_done D hci_send_req tr device false fclose_eof)
  | (Started.receive_loop, tr) =>
    match recvLoop D running_time end_time time read device rfuel fuel 0 0 tr with
    | none => none
    | some (_, _, _, tr) =>
      some (main_done D hci_send_req tr device (decide (stdout_print = 0)) fclose_eof)

/-! ## The option `-t` and the deadline -/

/-- What the case `'t'` of the option switch does. -/
inductive OptionT where
  /-- The message is printed to `stderr` and `main` returns `code`. -/
  | rejected (msg : String) (code : Int)
  /-- The switch is left by `break` with this value of `running_time`. -/
  | accepted (running_time : Nat)
deriving DecidableEq, Repr

/-- The case `'t'` of the option switch (lines 164-169); `n` is the value
returned by `atoi(optarg)`.  The assignment converts it to `uint8_t`, and the
value of the assignment expression is the converted value. -/
def option_t (n : Int) : OptionT :=
  let running_time : Nat := (n % 256).toNat
  if (running_time : Int) ≤ 0 then
    OptionT.rejected "Program running time may not be zero or negative" 1
  else OptionT.accepted running_time

/-- Lines 177-184 of `main`: the value of `end_time`, or the value returned by
`main` when the clock cannot be read; `now` is the value of `time(NULL)`. -/
def main_end_time (running_time : Nat) (now : Int) : Except Int Int :=
  if running_time ≠ 0 then
    if now = -1 then Except.error (-1)
    else Except.ok (now + (running_time : Int))
  else Except.ok 0

/-! ## Reading a parameter block back -/

/-- The fields read back from the bytes of a `le_set_scan_parameters_cp`;
the 16-bit fields are little-endian. -/
def le_set_scan_parameters_cp.ofBytes : List Nat → Option le_set_scan_parameters_cp
  | [t, i0, i1, w0, w1, o, f] => some ⟨t, i0 + 256 * i1, w0 + 256 * w1, o, f⟩
  | _ => none

/-! ## The bytes read by the decoding step -/

/-- One more than the largest index read for the report at `offset`: its six
address bytes, its length byte and its signal-strength byte. -/
def reportEnd (D : HciDefs) (mem : Nat → Nat) (offset : Nat) : Nat :=
  max (offset + D.bdaddr_off + 6)
    (max (offset + D.length_off + 1) (offset + D.data_off + rd mem (offset + D.length_off) + 1))

/-- One more than the largest index read for `n` successive reports from
`offset` on (0 when `n = 0`). -/
def readsEnd (D : HciDefs) (mem : Nat → Nat) : Nat → Nat → Nat
  | 0, _ => 0
  | n + 1, offset => max (reportEnd D mem offset) (readsEnd D mem n (reportStep D mem offset).2)

/-- One more than the largest index the decoding step can read in the buffer:
the subevent byte, the count byte and the bytes of as many reports as the count
byte says. -/
def extent (D : HciDefs) (mem : Nat → Nat) : Nat :=
  max (D.HCI_EVENT_HDR_SIZE + 1 + D.subevent_off + 1)
    (max (D.HCI_EVENT_HDR_SIZE + 1 + D.meta_data_off + 1)
      (readsEnd D mem (rd mem (D.HCI_EVENT_HDR_SIZE + 1 + D.meta_data_off))
        (D.HCI_EVENT_HDR_SIZE + 1 + D.meta_data_off + 1)))

/-! ## More concrete inputs -/

/-- A received event of 38 bytes in the layout of `bluez` with count byte 3;
the reports are laid out with the stride of the code (one unused byte after
each signal-strength byte). -/
def threeReports : List Nat :=
  [0x04, 0x3E, 35, 0x02, 3,
   0, 0, 0x01, 0x02, 0x03, 0x04, 0x05, 0x06, 0, 0xFE, 0,
   0, 0, 0x0A, 0x0B, 0x0C, 0x0D, 0x0E, 0x0F, 0, 0x0A, 0,
   0, 0, 0x1A, 0x2B, 0x3C, 0x4D, 0x5E, 0x6F, 0, 0xF6, 0]

/-- The buffer of `truncatedReport` with another byte (0x05) at index 14,
which is not among the 14 received bytes. -/
def truncatedReportOther : List Nat :=
  [0x04, 0x3E, 0x0B, 0x02, 1, 0, 0, 0x01, 0x02, 0x03, 0x04, 0x05, 0x06, 0,
   0x05]

/-- Clock readings 99, 100, 100, ...: with `end_time = 100` the first test of
the deadline says continue and the later ones say stop. -/
def clockReaching : Nat → Int := fun i => if i = 0 then 99 else 100

/-- A run of `read` calls: data (the event `oneReport`, 16 bytes), then a
failure with `EAGAIN`, then a failure with `EINTR` while the flag holds
`SIGINT`; every later call fails with error number 5. -/
def readsUntilInterrupt : Nat → ReadResult := fun k =>
  if k = 0 then ⟨16, 0, 0, memOf oneReport⟩
  else if k = 1 then ⟨-1, bluez.EAGAIN, 0, memOf oneReport⟩
  else if k = 2 then ⟨-1, bluez.EINTR, bluez.SIGINT, memOf oneReport⟩
  else ⟨-1, 5, 0, memOf oneReport⟩

/-- A transport on which every send succeeds with status 0. -/
def okTransport : Transport := fun _ _ => ⟨0, 0⟩

/-- A run of `read` calls in which the first call returns data (the event
`oneReport`) while the flag `signal_received` already holds `SIGINT`, and every
later call fails with `EINTR` while the flag holds `SIGINT`. -/
def readsDataWhileSigint : Nat → ReadResult := fun k =>
  if k = 0 then ⟨16, 0, bluez.SIGINT, memOf oneReport⟩
  else ⟨-1, bluez.EINTR, bluez.SIGINT, memOf oneReport⟩

/-- The event `oneReport` followed in the buffer by one more byte, which is
not among the 16 received bytes. -/
def oneReportOther : List Nat :=
  [0x04, 0x3E, 13, 0x02, 1, 0, 0, 0x1A, 0x2B, 0x3C, 0x4D, 0x5E, 0x6F, 1, 0xAA, 0xF6, 0x99]

/-! ## Lemmas on the report loop -/

theorem recordsFrom_length (D : HciDefs) (mem : Nat → Nat) (n offset : Nat) :
    (recordsFrom D mem n offset).length = n := by
  induction n generalizing offset with
  | zero => rfl
  | succ n ih => simp [recordsFrom, ih]

/-- Without a deadline the loop, given more fuel than the counter value, runs
the body once per unit of the counter and makes no clock call. -/
theorem reportLoop_no_deadline (D : HciDefs) (mem : Nat → Nat) (end_time : Int)
    (time : Nat → Int) (tick : Nat) :
    ∀ (c fuel offset : Nat), c < 256 → c < fuel →
      reportLoop D mem 0 end_time time fuel c offset tick
        = some (recordsFrom D mem c offset, tick) := by
  intro c
  induction c with
  | zero =>
    intro fuel offset _ hf
    obtain ⟨f, rfl⟩ : ∃ f, fuel = f + 1 := ⟨fuel - 1, by omega⟩
    simp [reportLoop, recordsFrom]
  | succ c ih =>
    intro fuel offset hc hf
    obtain ⟨f, rfl⟩ : ∃ f, fuel = f + 1 := ⟨fuel - 1, by omega⟩
    have hdec : (c + 1 + 255) % 256 = c := by omega
    have hrec := ih f (reportStep D mem offset).2 (by omega) (by omega)
    simp [reportLoop, recordsFrom, hdec, hrec]

theorem rd_lt (mem : Nat → Nat) (i : Nat) : rd mem i < 256 := by
  unfold rd
  omega

/-! ## Theorems -/

/-- C1 (fails on the code).  On a received event holding two well-formed
reports back-to-back, addresses `01 02 03 04 05 06` and `0A 0B 0C 0D 0E 0F`,
length 0, signal bytes 0xFE and 0x0A, the decoding step prints two records,
the first one `("06:05:04:03:02:01", -2)`, but the second one is read one
byte too far: its address is `00:0F:0E:0D:0C:0B`, not `0F:0E:0D:0C:0B:0A`,
and its signal strength is not 10.  This holds for the report layout of the
spec and for the layout of the BlueZ header. -/
theorem decodeStep_twoReports_second_record_shifted :
    decodeStep specLayout (memOf twoReportsSpec) 23 0 0 (fun _ => 0) 256 0
        = some ([⟨"06:05:04:03:02:01", -2⟩, ⟨"00:0F:0E:0D:0C:0B", 0⟩], 0)
      ∧ decodeStep bluez (memOf twoReportsBluez) 25 0 0 (fun _ => 0) 256 0
        = some ([⟨"06:05:04:03:02:01", -2⟩, ⟨"00:0F:0E:0D:0C:0B", 0⟩], 0)
      ∧ decodeStep specLayout (memOf twoReportsSpec) 23 0 0 (fun _ => 0) 256 0
        ≠ some ([⟨"06:05:04:03:02:01", -2⟩, ⟨"0F:0E:0D:0C:0B:0A", 10⟩], 0)
      ∧ decodeStep bluez (memOf twoReportsBluez) 25 0 0 (fun _ => 0) 256 0
        ≠ some ([⟨"06:05:04:03:02:01", -2⟩, ⟨"0F:0E:0D:0C:0B:0A", 10⟩], 0) := by
  refine ⟨by decide, by decide, by decide, by decide⟩

/-- C2 (fails on the code).  For the first report of the two-report event,
whose payload starts at `p` and has length `L = 0`, the signal-strength byte
is read at `p + L`, but the cursor is set to `p + L + 2`, one byte past the
start `p + L + 1` of the second report: 15 instead of 14 in the layout of the
spec, 16 instead of 15 in the layout of the BlueZ header.  For every report
the new cursor is payload start plus length plus 2. -/
theorem reportStep_cursor_skips_one_byte :
    (∀ (D : HciDefs) (mem : Nat → Nat) (offset : Nat),
        (reportStep D mem offset).2
          = offset + D.data_off + rd mem (offset + D.length_off) + 2)
      ∧ (5 + specLayout.data_off = 13 ∧ rd (memOf twoReportsSpec) (5 + specLayout.length_off) = 0
        ∧ (reportStep specLayout (memOf twoReportsSpec) 5).1.rssi
            = int8_t (rd (memOf twoReportsSpec) (13 + 0))
        ∧ (reportStep specLayout (memOf twoReportsSpec) 5).2 = 13 + 0 + 2)
      ∧ (5 + bluez.data_off = 14 ∧ rd (memOf twoReportsBluez) (5 + bluez.length_off) = 0
        ∧ (reportStep bluez (memOf twoReportsBluez) 5).1.rssi
            = int8_t (rd (memOf twoReportsBluez) (14 + 0))
        ∧ (reportStep bluez (memOf twoReportsBluez) 5).2 = 14 + 0 + 2) := by
  refine ⟨fun _ _ _ => rfl, by decide, by decide⟩

/-- C3 (counterexample).  A buffer too short to contain the subevent byte
(3 bytes received, subevent at index 3) still makes the decoding step print a
record, built from bytes left in the buffer; and a 14-byte buffer whose only
report has its signal-strength byte at index 14 makes it print a record whose
signal strength is the byte found there. -/
theorem decodeStep_prints_from_bytes_not_received :
    ((3 : Int) ≤ ((bluez.HCI_EVENT_HDR_SIZE + 1 + bluez.subevent_off : Nat) : Int)
        ∧ decodeStep bluez (memOf staleAfterShortRead) 3 0 0 (fun _ => 0) 256 0
            = some ([⟨"06:05:04:03:02:01", -2⟩], 0))
      ∧ ((14 : Int) ≤ ((5 + bluez.data_off
            + rd (memOf truncatedReport) (5 + bluez.length_off) : Nat) : Int)
        ∧ decodeStep bluez (memOf truncatedReport) 14 0 0 (fun _ => 0) 256 0
            = some ([⟨"06:05:04:03:02:01", 127⟩], 0)) := by
  refine ⟨⟨by decide, by decide⟩, by decide, by decide⟩

/-- C3 (amended).  The received length is used for one test only: when it is
smaller than `HCI_EVENT_HDR_SIZE` the decoding step prints no record, and for
any two lengths that are at least `HCI_EVENT_HDR_SIZE` the step prints the
same records from the same memory. -/
theorem decodeStep_length_tested_against_header_only (D : HciDefs) (mem : Nat → Nat)
    (len len' : Int) (running_time : Nat) (end_time : Int) (time : Nat → Int)
    (fuel tick : Nat) :
    (len < (D.HCI_EVENT_HDR_SIZE : Int) →
        decodeStep D mem len running_time end_time time fuel tick = some ([], tick))
      ∧ ((D.HCI_EVENT_HDR_SIZE : Int) ≤ len → (D.HCI_EVENT_HDR_SIZE : Int) ≤ len' →
        decodeStep D mem len running_time end_time time fuel tick
          = decodeStep D mem len' running_time end_time time fuel tick) := by
  constructor
  · intro h
    have h' : ¬ (len ≥ (D.HCI_EVENT_HDR_SIZE : Int)) := by omega
    simp [decodeStep, h']
  · intro h h'
    have h1 : len ≥ (D.HCI_EVENT_HDR_SIZE : Int) := h
    have h2 : len' ≥ (D.HCI_EVENT_HDR_SIZE : Int) := h'
    simp [decodeStep, h1, h2]

theorem decodeStep_length_tested_against_header_only_witness :
    decodeStep bluez (memOf staleAfterShortRead) 1 0 0 (fun _ => 0) 256 0 = some ([], 0)
      ∧ decodeStep bluez (memOf truncatedReport) 14 0 0 (fun _ => 0) 256 0
          = decodeStep bluez (memOf truncatedReport) 260 0 0 (fun _ => 0) 256 0 :=
  ⟨(decodeStep_length_tested_against_header_only bluez (memOf staleAfterShortRead) 1 1 0 0
      (fun _ => 0) 256 0).1 (by decide),
   (decodeStep_length_tested_against_header_only bluez (memOf truncatedReport) 14 260 0 0
      (fun _ => 0) 256 0).2 (by decide) (by decide)⟩

/-- C4.  For a received buffer of at least `HCI_EVENT_HDR_SIZE` bytes whose
subevent byte is `EVT_LE_ADVERTISING_REPORT`, with no deadline set
(`running_time = 0`) and fuel for 256 tests of the 8-bit counter, the
decoding loop ends and prints exactly as many records as the count byte says,
whatever the received length is. -/
theorem decodeStep_prints_count_records (D : HciDefs) (mem : Nat → Nat) (len : Int)
    (end_time : Int) (time : Nat → Int) (fuel tick : Nat)
    (hlen : (D.HCI_EVENT_HDR_SIZE : Int) ≤ len)
    (hsub : rd mem (D.HCI_EVENT_HDR_SIZE + 1 + D.subevent_off) = D.EVT_LE_ADVERTISING_REPORT)
    (hfuel : 256 ≤ fuel) :
    ∃ rs, decodeStep D mem len 0 end_time time fuel tick = some (rs, tick)
      ∧ rs.length = rd mem (D.HCI_EVENT_HDR_SIZE + 1 + D.meta_data_off)
      ∧ rs.length ≤ 255 := by
  have hc := rd_lt mem (D.HCI_EVENT_HDR_SIZE + 1 + D.meta_data_off)
  have hge : len ≥ (D.HCI_EVENT_HDR_SIZE : Int) := hlen
  refine ⟨recordsFrom D mem (rd mem (D.HCI_EVENT_HDR_SIZE + 1 + D.meta_data_off))
    (D.HCI_EVENT_HDR_SIZE + 1 + D.meta_data_off + 1), ?_, ?_, ?_⟩
  · simp only [decodeStep, hge, hsub, if_true]
    exact reportLoop_no_deadline D mem end_time time tick _ fuel _ hc (by omega)
  · exact recordsFrom_length D mem _ _
  · rw [recordsFrom_length]
    omega

theorem decodeStep_prints_count_records_witness :
    ∃ rs, decodeStep bluez (memOf twoReportsBluez) 25 0 0 (fun _ => 0) 256 0 = some (rs, 0)
      ∧ rs.length = rd (memOf twoReportsBluez) (bluez.HCI_EVENT_HDR_SIZE + 1 + bluez.meta_data_off)
      ∧ rs.length ≤ 255 :=
  decodeStep_prints_count_records bluez (memOf twoReportsBluez) 25 0 (fun _ => 0) 256 0
    (by decide) (by decide) (by decide)

theorem hexVal_hexDigit : ∀ n, n < 16 → hexVal (hexDigit n) = some n := by
  decide

/-- C5.  For every six address bytes `b0 .. b5` in on-wire order, the address
string is 17 characters long: the bytes in reversed order `b5 .. b0`, each as
two uppercase hexadecimal digits (high digit first), separated by colons; it
is the address of the record printed for a report, taken from the six bytes
of its address field; `1A 2B 3C 4D 5E 6F` gives `6F:5E:4D:3C:2B:1A`. -/
theorem ba2str_reversed_uppercase_hex (b0 b1 b2 b3 b4 b5 : Nat) :
    (ba2str b0 b1 b2 b3 b4 b5).length = 17
      ∧ (∃ h5 l5 h4 l4 h3 l3 h2 l2 h1 l1 h0 l0 : Char,
          ba2str b0 b1 b2 b3 b4 b5
            = String.mk [h5, l5, ':', h4, l4, ':', h3, l3, ':', h2, l2, ':', h1, l1, ':', h0, l0]
          ∧ hexVal h5 = some (b5 % 256 / 16) ∧ hexVal l5 = some (b5 % 256 % 16)
          ∧ hexVal h4 = some (b4 % 256 / 16) ∧ hexVal l4 = some (b4 % 256 % 16)
          ∧ hexVal h3 = some (b3 % 256 / 16) ∧ hexVal l3 = some (b3 % 256 % 16)
          ∧ hexVal h2 = some (b2 % 256 / 16) ∧ hexVal l2 = some (b2 % 256 % 16)
          ∧ hexVal h1 = some (b1 % 256 / 16) ∧ hexVal l1 = some (b1 % 256 % 16)
          ∧ hexVal h0 = some (b0 % 256 / 16) ∧ hexVal l0 = some (b0 % 256 % 16))
      ∧ (∀ (D : HciDefs) (mem : Nat → Nat) (offset : Nat),
          (reportStep D mem offset).1.addr
            = ba2str (rd mem (offset + D.bdaddr_off)) (rd mem (offset + D.bdaddr_off + 1))
                (rd mem (offset + D.bdaddr_off + 2)) (rd mem (offset + D.bdaddr_off + 3))
                (rd mem (offset + D.bdaddr_off + 4)) (rd mem (offset + D.bdaddr_off + 5)))
      ∧ ba2str 0x1A 0x2B 0x3C 0x4D 0x5E 0x6F = "6F:5E:4D:3C:2B:1A" := by
  have hi : ∀ b : Nat, hexVal (hexDigit (b % 256 / 16)) = some (b % 256 / 16) :=
    fun b => hexVal_hexDigit _ (by omega)
  have lo : ∀ b : Nat, hexVal (hexDigit (b % 16)) = some (b % 256 % 16) := by
    intro b
    have h : b % 256 % 16 = b % 16 := by omega
    rw [h]
    exact hexVal_hexDigit _ (by omega)
  refine ⟨rfl, ?_, fun _ _ _ => rfl, by decide⟩
  exact ⟨_, _, _, _, _, _, _, _, _, _, _, _, rfl,
    hi b5, lo b5, hi b4, lo b4, hi b3, lo b3, hi b2, lo b2, hi b1, lo b1, hi b0, lo b0⟩

/-- C6.  The signal strength of the record printed for a report is the signed
reading of the byte at payload start plus payload length: a byte `v < 128`
gives `v`, a byte `v ≥ 128` gives `v - 256`; it lies between -128 and 127;
the byte 0xF6 gives -10 and the byte 0x05 gives 5. -/
theorem reportStep_rssi_signed_byte (D : HciDefs) (mem : Nat → Nat) (offset : Nat) :
    ((reportStep D mem offset).1.rssi
        = if rd mem (offset + D.data_off + rd mem (offset + D.length_off)) < 128
          then (rd mem (offset + D.data_off + rd mem (offset + D.length_off)) : Int)
          else (rd mem (offset + D.data_off + rd mem (offset + D.length_off)) : Int) - 256)
      ∧ -128 ≤ (reportStep D mem offset).1.rssi
      ∧ (reportStep D mem offset).1.rssi ≤ 127
      ∧ int8_t 0xF6 = -10 ∧ int8_t 0x05 = 5
      ∧ (reportStep bluez (memOf oneReport) 5).1.rssi = -10 := by
  have hv := rd_lt mem (offset + D.data_off + rd mem (offset + D.length_off))
  have hmod : rd mem (offset + D.data_off + rd mem (offset + D.length_off)) % 256
      = rd mem (offset + D.data_off + rd mem (offset + D.length_off)) := Nat.mod_eq_of_lt hv
  have hr : (reportStep D mem offset).1.rssi
      = int8_t (rd mem (offset + D.data_off + rd mem (offset + D.length_off))) := rfl
  rw [hr]
  unfold int8_t
  rw [hmod]
  refine ⟨rfl, ?_, ?_, by decide, by decide, by decide⟩
  · split <;> omega
  · split <;> omega

/-- C7.  After a successful `read` whose length is smaller than
`HCI_EVENT_HDR_SIZE`, whatever the buffer holds, the iteration prints no
record and does not take the error exit: it ends as the deadline test of line
268 alone decides, so with no deadline set, or with a deadline not yet
reached, the next `read` follows. -/
theorem loopStep_short_read (D : HciDefs) (running_time : Nat) (end_time : Int)
    (time : Nat → Int) (fuel : Nat) (r : ReadResult) (tick : Nat)
    (hok : 0 ≤ r.len) (hshort : r.len < (D.HCI_EVENT_HDR_SIZE : Int)) :
    ∃ t n, loopStep D running_time end_time time fuel r tick = some ([], t, n)
      ∧ n ≠ Next.goto_done
      ∧ (running_time = 0 → n = Next.next_read ∧ t = tick)
      ∧ (check_stop_time end_time (time tick) = 0 → n = Next.next_read)
      ∧ (n = Next.break_loop ↔ running_time ≠ 0 ∧ check_stop_time end_time (time tick) ≠ 0) := by
  have h1 : ¬ r.len < 0 := by omega
  have h2 : ¬ (r.len ≥ (D.HCI_EVENT_HDR_SIZE : Int)) := by omega
  by_cases hrt : running_time = 0
  · refine ⟨tick, Next.next_read, ?_, by decide, fun _ => ⟨rfl, rfl⟩, fun _ => rfl, ?_⟩
    · simp [loopStep, decodeStep, h1, h2, hrt]
    · simp [hrt]
  · by_cases hc : check_stop_time end_time (time tick) = 0
    · refine ⟨tick + 1, Next.next_read, ?_, by decide, fun h => absurd h hrt, fun _ => rfl, ?_⟩
      · simp [loopStep, decodeStep, h1, h2, hrt, hc]
      · simp [hc]
    · refine ⟨tick + 1, Next.break_loop, ?_, by decide, fun h => absurd h hrt,
        fun h => absurd h hc, ?_⟩
      · simp [loopStep, decodeStep, h1, h2, hrt, hc]
      · simp [hrt, hc]

theorem loopStep_short_read_witness :
    ∃ t n, loopStep bluez 0 0 (fun _ => 0) 256 ⟨1, 0, 0, memOf staleAfterShortRead⟩ 0
        = some ([], t, n)
      ∧ n ≠ Next.goto_done
      ∧ ((0 : Nat) = 0 → n = Next.next_read ∧ t = 0)
      ∧ (check_stop_time 0 ((fun _ => (0 : Int)) 0) = 0 → n = Next.next_read)
      ∧ (n = Next.break_loop ↔ (0 : Nat) ≠ 0 ∧ check_stop_time 0 ((fun _ => (0 : Int)) 0) ≠ 0) :=
  loopStep_short_read bluez 0 0 (fun _ => 0) 256 ⟨1, 0, 0, memOf staleAfterShortRead⟩ 0
    (by decide) (by decide)

/-- C8.  When the byte at the subevent offset of the meta-event differs from
`EVT_LE_ADVERTISING_REPORT`, the decoding step prints no record, whatever the
received length, the count byte, the other bytes and the deadline are. -/
theorem decodeStep_other_subevent (D : HciDefs) (mem : Nat → Nat) (len : Int)
    (running_time : Nat) (end_time : Int) (time : Nat → Int) (fuel tick : Nat)
    (hsub : rd mem (D.HCI_EVENT_HDR_SIZE + 1 + D.subevent_off) ≠ D.EVT_LE_ADVERTISING_REPORT) :
    decodeStep D mem len running_time end_time time fuel tick = some ([], tick) := by
  unfold decodeStep
  split
  · simp [hsub]
  · rfl

theorem decodeStep_other_subevent_witness :
    rd (memOf otherSubevent) (bluez.HCI_EVENT_HDR_SIZE + 1 + bluez.subevent_off)
        ≠ bluez.EVT_LE_ADVERTISING_REPORT
      ∧ decodeStep bluez (memOf otherSubevent) 15 0 0 (fun _ => 0) 256 0 = some ([], 0) :=
  ⟨by decide, decodeStep_other_subevent bluez (memOf otherSubevent) 15 0 0 (fun _ => 0) 256 0
    (by decide)⟩

theorem sentRequests_append (a b : List Event) :
    sentRequests (a ++ b) = sentRequests a ++ sentRequests b := by
  induction a with
  | nil => rfl
  | cons e es ih => cases e <;> simp [sentRequests, ih]

/-- C9.  Once the device is open, the start sequence of `main` sends
set-scan-parameters, set-event-mask, scan-enable in this order and stops at
the first send that fails: the requests sent are always an initial segment
of that order; if the parameters send fails only it was sent, if the mask
send fails only parameters and mask were sent, and whenever one of the three
sends fails `main` returns -1; the receive loop is entered only after three
sends that did not fail. -/
theorem main_start_stops_at_first_failing_send (D : HciDefs) (hci_send_req : Transport)
    (device setsockopt : Int) (stdout_print : Nat) (fopen_ok : Bool) (hdev : 0 ≤ device) :
    let res := main_start D hci_send_req device setsockopt stdout_print fopen_ok
    let sent := sentRequests res.2
    let tr1 := [Event.send device (scanParametersRequest D) 1000]
    let tr2 := tr1 ++ [Event.send device (eventMaskRequest D) 1000]
    let r1 := (hci_send_req [] (scanParametersRequest D)).ret
    let r2 := (hci_send_req tr1 (eventMaskRequest D)).ret
    let r3 := (hci_send_req tr2 (scanEnableRequest D 0x001)).ret
    sent <+: startOrder D
      ∧ (r1 < 0 → sent = [scanParametersRequest D] ∧ res.1 = Started.returned (-1))
      ∧ (0 ≤ r1 → r2 < 0 →
          sent = [scanParametersRequest D, eventMaskRequest D] ∧ res.1 = Started.returned (-1))
      ∧ (0 ≤ r1 → 0 ≤ r2 → r3 < 0 → sent = startOrder D ∧ res.1 = Started.returned (-1))
      ∧ (0 ≤ r1 → 0 ≤ r2 → 0 ≤ r3 → sent = startOrder D)
      ∧ (res.1 = Started.receive_loop → 0 ≤ r1 ∧ 0 ≤ r2 ∧ 0 ≤ r3) := by
  intro res sent tr1 tr2 r1 r2 r3
  have hd : ¬ device < 0 := by omega
  by_cases h1 : r1 < 0
  · have h1' : (hci_send_req [] (scanParametersRequest D)).ret < 0 := h1
    have hne : (hci_send_req [] (scanParametersRequest D)).ret ≠ 0 := by omega
    have hres : res = (Started.returned (-1), [Event.send device (scanParametersRequest D) 1000,
        Event.close_dev device, Event.perror "Failed to set scan parameters data"]) := by
      simp [res, main_start, le_set_scan_parameters, hd, h1', hne]
    have hsent : sent = [scanParametersRequest D] := by
      simp [sent, hres, sentRequests]
    refine ⟨?_, fun _ => ⟨hsent, by rw [hres]⟩, fun h => by omega, fun h => by omega,
      fun h => by omega, fun h => ?_⟩
    · rw [hsent]
      exact ⟨[eventMaskRequest D, scanEnableRequest D 0x001], rfl⟩
    · rw [hres] at h
      cases h
  · have h1' : ¬ (hci_send_req [] (scanParametersRequest D)).ret < 0 := h1
    by_cases h2 : r2 < 0
    · have h2' : (hci_send_req [Event.send device (scanParametersRequest D) 1000]
          (eventMaskRequest D)).ret < 0 := h2
      have hne : (hci_send_req [Event.send device (scanParametersRequest D) 1000]
          (eventMaskRequest D)).ret ≠ 0 := by omega
      have hres : res = (Started.returned (-1), [Event.send device (scanParametersRequest D) 1000,
          Event.send device (eventMaskRequest D) 1000,
          Event.close_dev device, Event.perror "Failed to set event mask"]) := by
        simp [res, main_start, le_set_scan_parameters, le_set_reports_mask, hd, h1', h2', hne]
      have hsent : sent = [scanParametersRequest D, eventMaskRequest D] := by
        simp [sent, hres, sentRequests]
      refine ⟨?_, fun h => by omega, fun _ _ => ⟨hsent, by rw [hres]⟩, fun _ h => by omega,
        fun _ h => by omega, fun h => ?_⟩
      · rw [hsent]
        exact ⟨[scanEnableRequest D 0x001], rfl⟩
      · rw [hres] at h
        cases h
    · have h2' : ¬ (hci_send_req [Event.send device (scanParametersRequest D) 1000]
          (eventMaskRequest D)).ret < 0 := h2
      by_cases h3 : r3 < 0
      · have h3' : (hci_send_req [Event.send device (scanParametersRequest D) 1000,
            Event.send device (eventMaskRequest D) 1000] (scanEnableRequest D 0x001)).ret < 0 := h3
        have hres : res = (Started.returned (-1), [Event.send device (scanParametersRequest D) 1000,
            Event.send device (eventMaskRequest D) 1000,
            Event.send device (scanEnableRequest D 0x001) 1000,
            Event.close_dev device, Event.perror "Failed to enable scan"]) := by
          simp [res, main_start, le_set_scan_parameters, le_set_reports_mask, le_scan_enable,
            hd, h1', h2', h3']
        have hsent : sent = startOrder D := by
          simp [sent, hres, sentRequests, startOrder]
        refine ⟨?_, fun h => by omega, fun _ h => by omega, fun _ _ _ => ⟨hsent, by rw [hres]⟩,
          fun _ _ h => by omega, fun h => ?_⟩
        · rw [hsent]
        · rw [hres] at h
          cases h
      · have h3' : ¬ (hci_send_req [Event.send device (scanParametersRequest D) 1000,
            Event.send device (eventMaskRequest D) 1000] (scanEnableRequest D 0x001)).ret < 0 := h3
        have hsent : sent = startOrder D := by
          simp only [sent, res, main_start, le_set_scan_parameters, le_set_reports_mask,
            le_scan_enable, hd, h1', h2', h3', if_false, List.nil_append, List.cons_append,
            ne_eq, not_true_eq_false]
          split <;> (try split) <;> (try split) <;>
            simp [sentRequests_append, sentRequests, startOrder]
        refine ⟨?_, fun h => by omega, fun _ h => by omega, fun _ _ h => by omega,
          fun _ _ _ => hsent, fun _ => ⟨by omega, by omega, by omega⟩⟩
        rw [hsent]

theorem main_start_stops_at_first_failing_send_witness :
    sentRequests (main_start bluez failsOnSecond 3 0 1 true).2
        = [scanParametersRequest bluez, eventMaskRequest bluez]
      ∧ (main_start bluez failsOnSecond 3 0 1 true).1 = Started.returned (-1) :=
  (main_start_stops_at_first_failing_send bluez failsOnSecond 3 0 1 true (by decide)).2.2.1
    (by decide) (by decide)

/-- C10 (counterexample).  On a transport that completes every round trip
and answers every command with the non-zero status 0x0C, each of the three
command functions returns 0 and `main` enters the receive loop. -/
theorem rejected_commands_count_as_success :
    (∀ tr rq, (rejectingTransport tr rq).ret = 0 ∧ (rejectingTransport tr rq).status ≠ 0)
      ∧ (le_set_scan_parameters bluez rejectingTransport [] 3).1 = 0
      ∧ (le_set_reports_mask bluez rejectingTransport [] 3).1 = 0
      ∧ (le_scan_enable bluez rejectingTransport [] 3 0x01).1 = 0
      ∧ (main_start bluez rejectingTransport 3 0 1 true).1 = Started.receive_loop := by
  refine ⟨fun _ _ => ⟨rfl, by simp [rejectingTransport]⟩, by decide, by decide, by decide,
    by decide⟩

/-- C10 (amended).  Each of the three command functions reports failure
exactly when `hci_send_req` returns a negative value, and then closes the
device; the status byte of the response is never looked at: two transports
that give the same return values, whatever status bytes they store, make the
start of `main` behave the same, and when none of the three sends of the
start sequence fails `main` does not return -1. -/
theorem command_fails_iff_send_negative (D : HciDefs) (hci_send_req hci_send_req' : Transport)
    (tr : List Event) (device setsockopt : Int) (enable stdout_print : Nat) (fopen_ok : Bool)
    (hret : ∀ t rq, (hci_send_req t rq).ret = (hci_send_req' t rq).ret) :
    ((le_set_scan_parameters D hci_send_req tr device).1 ≠ 0
        ↔ (hci_send_req tr (scanParametersRequest D)).ret < 0)
      ∧ ((le_set_reports_mask D hci_send_req tr device).1 ≠ 0
        ↔ (hci_send_req tr (eventMaskRequest D)).ret < 0)
      ∧ ((le_scan_enable D hci_send_req tr device enable).1 ≠ 0
        ↔ (hci_send_req tr (scanEnableRequest D enable)).ret < 0)
      ∧ main_start D hci_send_req device setsockopt stdout_print fopen_ok
          = main_start D hci_send_req' device setsockopt stdout_print fopen_ok
      ∧ ((∀ t rq, 0 ≤ (hci_send_req t rq).ret) →
          (main_start D hci_send_req device setsockopt stdout_print fopen_ok).1
            ≠ Started.returned (-1)) := by
  refine ⟨?_, ?_, ?_, ?_, ?_⟩
  · unfold le_set_scan_parameters
    by_cases h : (hci_send_req tr (scanParametersRequest D)).ret < 0
    · have hne : (hci_send_req tr (scanParametersRequest D)).ret ≠ 0 := by omega
      simp [h, hne]
    · simp [h]
  · unfold le_set_reports_mask
    by_cases h : (hci_send_req tr (eventMaskRequest D)).ret < 0
    · have hne : (hci_send_req tr (eventMaskRequest D)).ret ≠ 0 := by omega
      simp [h, hne]
    · simp [h]
  · unfold le_scan_enable
    by_cases h : (hci_send_req tr (scanEnableRequest D enable)).ret < 0
    · simp only [h, if_true, iff_true]
      split <;> (try split) <;> simp
    · simp [h]
  · simp only [main_start, le_set_scan_parameters, le_set_reports_mask, le_scan_enable, hret]
  · intro hall
    have hd : ∀ t rq, ¬ (hci_send_req t rq).ret < 0 := fun t rq => by
      have := hall t rq
      omega
    simp only [main_start, le_set_scan_parameters, le_set_reports_mask, le_scan_enable, hd,
      if_false, ne_eq, not_true_eq_false]
    split
    · simp
    · split
      · simp
      · split <;> (try split) <;> simp

theorem command_fails_iff_send_negative_witness :
    main_start bluez rejectingTransport 3 0 1 true
        = main_start bluez (fun _ _ => ⟨0, 0⟩) 3 0 1 true
      ∧ (main_start bluez rejectingTransport 3 0 1 true).1 ≠ Started.returned (-1) :=
  ⟨(command_fails_iff_send_negative bluez rejectingTransport (fun _ _ => ⟨0, 0⟩) [] 3 0 1 1 true
      (fun _ _ => rfl)).2.2.2.1,
   (command_fails_iff_send_negative bluez rejectingTransport (fun _ _ => ⟨0, 0⟩) [] 3 0 1 1 true
      (fun _ _ => rfl)).2.2.2.2 (fun _ _ => by simp [rejectingTransport])⟩

/-! ## Lemmas on the receive loop and the end of `main` -/

theorem main_done_trace (D : HciDefs) (hci_send_req : Transport) (tr : List Event)
    (device : Int) (output_file fclose_eof : Bool) :
    ∃ rest, (main_done D hci_send_req tr device output_file fclose_eof).2
        = tr ++ Event.send device (scanEnableRequest D 0x00) 1000 :: rest
      ∧ sentRequests rest = []
      ∧ ((main_done D hci_send_req tr device output_file fclose_eof).1 = 0
        ∨ (main_done D hci_send_req tr device output_file fclose_eof).1 = -1) := by
  unfold main_done le_scan_enable
  by_cases h : (hci_send_req tr (scanEnableRequest D 0x00)).ret < 0
  · refine ⟨[Event.close_dev device, Event.perror "Failed to disable scan"], ?_, rfl, ?_⟩
    · simp [h]
    · simp [h]
  · cases output_file <;> cases fclose_eof
    · exact ⟨[], by simp [h], rfl, by simp [h]⟩
    · exact ⟨[], by simp [h], rfl, by simp [h]⟩
    · exact ⟨[], by simp [h], rfl, by simp [h]⟩
    · exact ⟨[Event.perror "Could not close output file"], by simp [h], rfl, by simp [h]⟩

theorem sentRequests_read_prints (device : Int) (rs : List Record) :
    sentRequests (Event.read device :: rs.map Event.print) = [] := by
  induction rs with
  | nil => rfl
  | cons r rs ih =>
    simp only [List.map_cons, sentRequests] at ih ⊢
    exact ih

theorem recvLoop_trace (D : HciDefs) (running_time : Nat) (end_time : Int) (time : Nat → Int)
    (read : Nat → ReadResult) (device : Int) (rfuel : Nat) :
    ∀ (fuel k tick : Nat) (tr : List Event) (n : Next) (k' tick' : Nat) (tr' : List Event),
      recvLoop D running_time end_time time read device rfuel fuel k tick tr
          = some (n, k', tick', tr') →
        ∃ mid, tr' = tr ++ mid ∧ sentRequests mid = []
          ∧ (n = Next.goto_done ∨ n = Next.break_loop) := by
  intro fuel
  induction fuel with
  | zero =>
    intro k tick tr n k' tick' tr' h
    simp [recvLoop] at h
  | succ fuel ih =>
    intro k tick tr n k' tick' tr' h
    unfold recvLoop at h
    cases hs : loopStep D running_time end_time time rfuel (read k) tick with
    | none => simp [hs] at h
    | some res =>
      obtain ⟨rs, t, nx⟩ := res
      simp only [hs] at h
      cases nx with
      | next_read =>
        simp only at h
        obtain ⟨mid, hmid, hsent, hn⟩ := ih _ _ _ _ _ _ _ h
        refine ⟨(Event.read device :: rs.map Event.print) ++ mid, ?_, ?_, hn⟩
        · rw [hmid]
          simp
        · rw [sentRequests_append, sentRequests_read_prints, hsent]
          rfl
      | goto_done =>
        simp only [Option.some.injEq, Prod.mk.injEq] at h
        obtain ⟨hn, _, _, htr⟩ := h
        exact ⟨Event.read device :: rs.map Event.print, htr.symm, sentRequests_read_prints _ _,
          Or.inl hn.symm⟩
      | break_loop =>
        simp only [Option.some.injEq, Prod.mk.injEq] at h
        obtain ⟨hn, _, _, htr⟩ := h
        exact ⟨Event.read device :: rs.map Event.print, htr.symm, sentRequests_read_prints _ _,
          Or.inr hn.symm⟩

/-! ## Theorems on the receive loop, the commands and the options -/

/-- C11.  For every run of `main` that enters the receive loop and whose loop
ends, by `goto done` (interrupt or fatal receive error) or by `break`
(deadline), what `main` does after the loop starts with the send of the
disable-scan command (`le_scan_enable` with `enable = 0`), no other command
is sent after it, none is sent during the loop, and `main` returns. -/
theorem main_body_disables_scan_once_after_loop (D : HciDefs) (hci_send_req : Transport)
    (device setsockopt : Int) (stdout_print : Nat) (fopen_ok fclose_eof : Bool)
    (running_time : Nat) (end_time : Int) (time : Nat → Int) (read : Nat → ReadResult)
    (fuel rfuel : Nat) (tr0 tr1 : List Event) (n : Next) (k tick : Nat)
    (hstart : main_start D hci_send_req device setsockopt stdout_print fopen_ok
      = (Started.receive_loop, tr0))
    (hloop : recvLoop D running_time end_time time read device rfuel fuel 0 0 tr0
      = some (n, k, tick, tr1)) :
    ∃ code mid rest,
      main_body D hci_send_req device setsockopt stdout_print fopen_ok fclose_eof running_time
          end_time time read fuel rfuel
        = some (code, tr0 ++ mid ++ Event.send device (scanEnableRequest D 0x00) 1000 :: rest)
      ∧ tr1 = tr0 ++ mid
      ∧ sentRequests mid = []
      ∧ sentRequests rest = []
      ∧ sentRequests (Event.send device (scanEnableRequest D 0x00) 1000 :: rest)
          = [scanEnableRequest D 0x00]
      ∧ (code = 0 ∨ code = -1)
      ∧ (n = Next.goto_done ∨ n = Next.break_loop) := by
  obtain ⟨mid, hmid, hsent, hn⟩ := recvLoop_trace D running_time end_time time read device rfuel
    fuel 0 0 tr0 n k tick tr1 hloop
  obtain ⟨rest, hrest, hsrest, hcode⟩ := main_done_trace D hci_send_req tr1 device
    (decide (stdout_print = 0)) fclose_eof
  refine ⟨(main_done D hci_send_req tr1 device (decide (stdout_print = 0)) fclose_eof).1, mid,
    rest, ?_, hmid, hsent, hsrest, ?_, hcode, hn⟩
  · unfold main_body
    rw [hstart]
    simp only [hloop]
    rw [← hmid, ← hrest]
  · simp [sentRequests, hsrest]

theorem main_body_disables_scan_once_after_loop_witness :
    ∃ code mid rest,
      main_body bluez okTransport 3 0 1 true false 0 0 (fun _ => 0) readsUntilInterrupt 10 256
        = some (code, (main_start bluez okTransport 3 0 1 true).2 ++ mid
            ++ Event.send 3 (scanEnableRequest bluez 0x00) 1000 :: rest)
      ∧ [Event.send 3 (scanParametersRequest bluez) 1000,
          Event.send 3 (eventMaskRequest bluez) 1000,
          Event.send 3 (scanEnableRequest bluez 0x001) 1000,
          Event.read 3, Event.print ⟨"6F:5E:4D:3C:2B:1A", -10⟩, Event.read 3, Event.read 3]
          = (main_start bluez okTransport 3 0 1 true).2 ++ mid
      ∧ sentRequests mid = []
      ∧ sentRequests rest = []
      ∧ sentRequests (Event.send 3 (scanEnableRequest bluez 0x00) 1000 :: rest)
          = [scanEnableRequest bluez 0x00]
      ∧ (code = 0 ∨ code = -1)
      ∧ (Next.goto_done = Next.goto_done ∨ Next.goto_done = Next.break_loop) :=
  main_body_disables_scan_once_after_loop bluez okTransport 3 0 1 true false 0 0 (fun _ => 0)
    readsUntilInterrupt 10 256 (main_start bluez okTransport 3 0 1 true).2
    [Event.send 3 (scanParametersRequest bluez) 1000,
      Event.send 3 (eventMaskRequest bluez) 1000,
      Event.send 3 (scanEnableRequest bluez 0x001) 1000,
      Event.read 3, Event.print ⟨"6F:5E:4D:3C:2B:1A", -10⟩, Event.read 3, Event.read 3]
    Next.goto_done 3 0 (by decide) (by decide)

/-- C12.  When `read` fails: if the error is `EINTR` and the flag holds
`SIGINT` the iteration ends by `goto done`; otherwise if the error is `EAGAIN`
or `EINTR` it ends by `continue`, so the next `read` follows, nothing is
printed and the clock is not read; for any other error it ends by
`goto done`.  The code after `done` starts with the send of the disable-scan
command. -/
theorem loopStep_failed_read (D : HciDefs) (running_time : Nat) (end_time : Int)
    (time : Nat → Int) (fuel : Nat) (r : ReadResult) (tick : Nat) (hfail : r.len < 0) :
    (r.errno = D.EINTR ∧ r.signal_received = D.SIGINT →
        loopStep D running_time end_time time fuel r tick = some ([], tick, Next.goto_done))
      ∧ (¬ (r.errno = D.EINTR ∧ r.signal_received = D.SIGINT) →
          (r.errno = D.EAGAIN ∨ r.errno = D.EINTR) →
        loopStep D running_time end_time time fuel r tick = some ([], tick, Next.next_read))
      ∧ (r.errno ≠ D.EAGAIN → r.errno ≠ D.EINTR →
        loopStep D running_time end_time time fuel r tick = some ([], tick, Next.goto_done))
      ∧ (∀ (hci_send_req : Transport) (tr : List Event) (device : Int)
          (output_file fclose_eof : Bool),
          ∃ rest, (main_done D hci_send_req tr device output_file fclose_eof).2
            = tr ++ Event.send device (scanEnableRequest D 0x00) 1000 :: rest) := by
  refine ⟨?_, ?_, ?_, ?_⟩
  · intro h
    simp [loopStep, hfail, h.1, h.2]
  · intro h1 h2
    simp only [loopStep, hfail, if_true, h1, if_false, h2]
  · intro h1 h2
    simp [loopStep, hfail, h1, h2]
  · intro hci_send_req tr device output_file fclose_eof
    obtain ⟨rest, h, _⟩ := main_done_trace D hci_send_req tr device output_file fclose_eof
    exact ⟨rest, h⟩

theorem loopStep_failed_read_witness :
    loopStep bluez 0 0 (fun _ => 0) 256 (readsUntilInterrupt 2) 0
        = some ([], 0, Next.goto_done)
      ∧ loopStep bluez 0 0 (fun _ => 0) 256 (readsUntilInterrupt 1) 0
        = some ([], 0, Next.next_read)
      ∧ loopStep bluez 0 0 (fun _ => 0) 256 (readsUntilInterrupt 3) 0
        = some ([], 0, Next.goto_done) :=
  ⟨(loopStep_failed_read bluez 0 0 (fun _ => 0) 256 (readsUntilInterrupt 2) 0 (by decide)).1
      (by decide),
   (loopStep_failed_read bluez 0 0 (fun _ => 0) 256 (readsUntilInterrupt 1) 0 (by decide)).2.1
      (by decide) (by decide),
   (loopStep_failed_read bluez 0 0 (fun _ => 0) 256 (readsUntilInterrupt 3) 0 (by decide)).2.2.1
      (by decide) (by decide)⟩

/-- C13.  The parameter block built by `le_set_scan_parameters` is the 7
bytes `00 10 00 10 00 00 00` (type, interval and window little-endian,
own-address type, filter policy); read back field by field it gives scan type
0, interval 0x0010, window 0x0010, own-address type 0 and filter policy 0;
the command code of the request is `OCF_LE_SET_SCAN_PARAMETERS` and its
parameter length is `LE_SET_SCAN_PARAMETERS_CP_SIZE`, which for the values of
the BlueZ header is 7, the number of bytes of the block; this request is the
one the function sends. -/
theorem scanParametersRequest_payload (D : HciDefs) (hci_send_req : Transport)
    (tr : List Event) (device : Int) :
    (scanParametersRequest D).cparam = [0x00, 0x10, 0x00, 0x10, 0x00, 0x00, 0x00]
      ∧ (scanParametersRequest D).cparam.length = 7
      ∧ le_set_scan_parameters_cp.ofBytes (scanParametersRequest D).cparam
          = some { type := 0x00, interval := 0x0010, window := 0x0010, own_bdaddr_type := 0x00,
                   filter := 0x00 }
      ∧ (∀ c : le_set_scan_parameters_cp, c.type < 256 → c.interval < 65536 →
          c.window < 65536 → c.own_bdaddr_type < 256 → c.filter < 256 →
          c.bytes.length = 7 ∧ le_set_scan_parameters_cp.ofBytes c.bytes = some c)
      ∧ (scanParametersRequest D).ocf = D.OCF_LE_SET_SCAN_PARAMETERS % 65536
      ∧ (scanParametersRequest D).clen = D.LE_SET_SCAN_PARAMETERS_CP_SIZE
      ∧ (scanParametersRequest bluez).ocf = bluez.OCF_LE_SET_SCAN_PARAMETERS
      ∧ (scanParametersRequest bluez).clen = ((scanParametersRequest bluez).cparam.length : Int)
      ∧ sentRequests (le_set_scan_parameters D hci_send_req tr device).2
          = sentRequests tr ++ [scanParametersRequest D] := by
  refine ⟨rfl, rfl, rfl, ?_, rfl, rfl, rfl, rfl, ?_⟩
  · intro c h1 h2 h3 h4 h5
    refine ⟨rfl, ?_⟩
    obtain ⟨t, i, w, o, f⟩ := c
    simp only at h1 h2 h3 h4 h5
    simp only [le_set_scan_parameters_cp.bytes, le16, List.cons_append, List.nil_append,
      List.singleton_append, le_set_scan_parameters_cp.ofBytes, Option.some.injEq,
      le_set_scan_parameters_cp.mk.injEq]
    refine ⟨by omega, by omega, by omega, by omega, by omega⟩
  · unfold le_set_scan_parameters
    by_cases h : (hci_send_req tr (scanParametersRequest D)).ret < 0
    · simp [h, sentRequests_append, sentRequests]
    · simp [h, sentRequests_append, sentRequests]

/-- C14.  The parameter block built by `le_set_reports_mask` has exactly 8
bytes, every one of which is 0xFF; the parameter length of the request is
`LE_SET_EVENT_MASK_CP_SIZE`, which for the values of the BlueZ header is 8;
this request is the one the function sends. -/
theorem eventMaskRequest_payload (D : HciDefs) (hci_send_req : Transport) (tr : List Event)
    (device : Int) :
    (eventMaskRequest D).cparam.length = 8
      ∧ (∀ b ∈ (eventMaskRequest D).cparam, b = 0xFF)
      ∧ (eventMaskRequest D).cparam = List.replicate 8 0xFF
      ∧ (eventMaskRequest D).clen = D.LE_SET_EVENT_MASK_CP_SIZE
      ∧ (eventMaskRequest bluez).clen = 8
      ∧ (eventMaskRequest D).ocf = D.OCF_LE_SET_EVENT_MASK % 65536
      ∧ sentRequests (le_set_reports_mask D hci_send_req tr device).2
          = sentRequests tr ++ [eventMaskRequest D] := by
  have hc : (eventMaskRequest D).cparam = List.replicate 8 0xFF := rfl
  refine ⟨rfl, ?_, hc, rfl, rfl, rfl, ?_⟩
  · intro b hb
    rw [hc] at hb
    exact List.eq_of_mem_replicate hb
  · unfold le_set_reports_mask
    by_cases h : (hci_send_req tr (eventMaskRequest D)).ret < 0
    · simp [h, sentRequests_append, sentRequests]
    · simp [h, sentRequests_append, sentRequests]

/-- C15.  For every byte value `e` of the argument `enable`, the parameter
block built by `le_scan_enable` has 2 bytes, the first one `e` and the second
one (filter duplicates) 0; the start of `main` sends `01 00` as its third
command and the code after `done` sends `00 00`. -/
theorem scanEnableRequest_payload (D : HciDefs) (hci_send_req : Transport) (tr : List Event)
    (device : Int) (e : Nat) (output_file fclose_eof : Bool) :
    (scanEnableRequest D e).cparam = [e % 256, 0x00]
      ∧ (e < 256 → (scanEnableRequest D e).cparam = [e, 0x00])
      ∧ sentRequests (le_scan_enable D hci_send_req tr device e).2
          = sentRequests tr ++ [scanEnableRequest D e]
      ∧ (startOrder D).map (fun rq => rq.cparam)
          = [[0x00, 0x10, 0x00, 0x10, 0x00, 0x00, 0x00], List.replicate 8 0xFF, [0x01, 0x00]]
      ∧ (sentRequests (main_done D hci_send_req tr device output_file fclose_eof).2).map
            (fun rq => rq.cparam)
          = (sentRequests tr).map (fun rq => rq.cparam) ++ [[0x00, 0x00]] := by
  have h1 : (scanEnableRequest D e).cparam = [e % 256, 0x00] := by
    simp [scanEnableRequest, ble_hci_request, le_set_scan_enable_cp.bytes]
  refine ⟨h1, ?_, ?_, rfl, ?_⟩
  · intro he
    rw [h1, Nat.mod_eq_of_lt he]
  · unfold le_scan_enable
    by_cases h : (hci_send_req tr (scanEnableRequest D e)).ret < 0
    · simp only [h, if_true]
      split <;> (try split) <;> simp [sentRequests_append, sentRequests]
    · simp [h, sentRequests_append, sentRequests]
  · obtain ⟨rest, hrest, hs, _⟩ := main_done_trace D hci_send_req tr device output_file fclose_eof
    rw [hrest, sentRequests_append]
    simp only [sentRequests, hs, List.map_append, List.map_cons, List.map_nil]
    rfl

/-- C16.  For every command code and group constant that fit 16 bits and
every parameter length, status pointer and parameter pointer,
`ble_hci_request` returns a request whose group code is `OGF_LE_CTL`, whose
command code, parameter pointer and parameter length are the arguments, whose
response pointer is the status argument, whose response length is 1 and whose
remaining field `event` is zero; the requests of the three command functions
have response length 1. -/
theorem ble_hci_request_fields {P S : Type} (D : HciDefs) (ocf : Nat) (clen : Int) (status : S)
    (cparam : P) (hogf : D.OGF_LE_CTL < 65536) (hocf : ocf < 65536) :
    (ble_hci_request D ocf clen status cparam).ogf = D.OGF_LE_CTL
      ∧ (ble_hci_request D ocf clen status cparam).ocf = ocf
      ∧ (ble_hci_request D ocf clen status cparam).cparam = cparam
      ∧ (ble_hci_request D ocf clen status cparam).clen = clen
      ∧ (ble_hci_request D ocf clen status cparam).rparam = status
      ∧ (ble_hci_request D ocf clen status cparam).rlen = 1
      ∧ (ble_hci_request D ocf clen status cparam).event = 0
      ∧ (scanParametersRequest D).rlen = 1
      ∧ (eventMaskRequest D).rlen = 1
      ∧ (∀ e, (scanEnableRequest D e).rlen = 1) := by
  refine ⟨?_, ?_, rfl, rfl, rfl, rfl, rfl, rfl, rfl, fun _ => rfl⟩
  · exact Nat.mod_eq_of_lt hogf
  · exact Nat.mod_eq_of_lt hocf

theorem ble_hci_request_fields_witness :
    (ble_hci_request bluez 0x000C 2 () [1, 0]).ogf = bluez.OGF_LE_CTL
      ∧ (ble_hci_request bluez 0x000C 2 () [1, 0]).ocf = 0x000C
      ∧ (ble_hci_request bluez 0x000C 2 () [1, 0]).cparam = [1, 0]
      ∧ (ble_hci_request bluez 0x000C 2 () [1, 0]).clen = 2
      ∧ (ble_hci_request bluez 0x000C 2 () [1, 0]).rparam = ()
      ∧ (ble_hci_request bluez 0x000C 2 () [1, 0]).rlen = 1
      ∧ (ble_hci_request bluez 0x000C 2 () [1, 0]).event = 0
      ∧ (scanParametersRequest bluez).rlen = 1
      ∧ (eventMaskRequest bluez).rlen = 1
      ∧ (∀ e, (scanEnableRequest bluez e).rlen = 1) :=
  ble_hci_request_fields bluez 0x000C 2 () [1, 0] (by decide) (by decide)

/-- C17 (counterexample).  A `read` that returns data while the flag holds
`SIGINT`, and a `read` that fails with `EAGAIN` while the flag holds `SIGINT`,
both end the iteration with another `read` to follow; in a run whose first
`read` returns data while the flag holds `SIGINT`, a second `read` is
issued. -/
theorem loopStep_ignores_flag_on_data :
    (readsDataWhileSigint 0).signal_received = bluez.SIGINT
      ∧ loopStep bluez 0 0 (fun _ => 0) 256 (readsDataWhileSigint 0) 0
          = some ([⟨"6F:5E:4D:3C:2B:1A", -10⟩], 0, Next.next_read)
      ∧ loopStep bluez 0 0 (fun _ => 0) 256 ⟨-1, bluez.EAGAIN, bluez.SIGINT, memOf oneReport⟩ 0
          = some ([], 0, Next.next_read)
      ∧ recvLoop bluez 0 0 (fun _ => 0) readsDataWhileSigint 3 256 10 0 0 []
          = some (Next.goto_done, 2, 0,
              [Event.read 3, Event.print ⟨"6F:5E:4D:3C:2B:1A", -10⟩, Event.read 3]) := by
  refine ⟨by decide, by decide, by decide, by decide⟩

/-- C17 (amended).  When a `read` fails with `EINTR` while the flag holds
`SIGINT`, the loop stops before another `read` is issued; when a `read`
returns data, or fails with an error other than `EINTR`, the flag is not
consulted: the iteration is the same whatever the flag holds. -/
theorem loopStep_flag_consulted_only_on_eintr (D : HciDefs) (running_time : Nat)
    (end_time : Int) (time : Nat → Int) (fuel : Nat) (r : ReadResult) (tick : Nat) :
    (r.len < 0 → r.errno = D.EINTR → r.signal_received = D.SIGINT →
        loopStep D running_time end_time time fuel r tick = some ([], tick, Next.goto_done)
        ∧ ∀ (read : Nat → ReadResult) (device : Int) (f k : Nat) (tr : List Event),
            read k = r →
            recvLoop D running_time end_time time read device fuel (f + 1) k tick tr
              = some (Next.goto_done, k + 1, tick, tr ++ [Event.read device]))
      ∧ (0 ≤ r.len ∨ r.errno ≠ D.EINTR → ∀ s : Int,
        loopStep D running_time end_time time fuel { r with signal_received := s } tick
          = loopStep D running_time end_time time fuel r tick) := by
  constructor
  · intro hlen herr hsig
    have hstep : loopStep D running_time end_time time fuel r tick
        = some ([], tick, Next.goto_done) := by
      simp [loopStep, hlen, herr, hsig]
    refine ⟨hstep, ?_⟩
    intro read device f k tr hread
    simp [recvLoop, hread, hstep]
  · intro h s
    rcases h with h | h
    · have hn : ¬ r.len < 0 := by omega
      simp [loopStep, hn]
    · by_cases hl : r.len < 0
      · simp [loopStep, hl, h]
      · simp [loopStep, hl]

theorem loopStep_flag_consulted_only_on_eintr_witness :
    (loopStep bluez 0 0 (fun _ => 0) 256 (readsUntilInterrupt 2) 0
        = some ([], 0, Next.goto_done)
      ∧ ∀ (read : Nat → ReadResult) (device : Int) (f k : Nat) (tr : List Event),
          read k = readsUntilInterrupt 2 →
          recvLoop bluez 0 0 (fun _ => 0) read device 256 (f + 1) k 0 tr
            = some (Next.goto_done, k + 1, 0, tr ++ [Event.read device]))
      ∧ ∀ s : Int,
        loopStep bluez 0 0 (fun _ => 0) 256
            { readsDataWhileSigint 0 with signal_received := s } 0
          = loopStep bluez 0 0 (fun _ => 0) 256 (readsDataWhileSigint 0) 0 :=
  ⟨(loopStep_flag_consulted_only_on_eintr bluez 0 0 (fun _ => 0) 256 (readsUntilInterrupt 2)
      0).1 (by decide) (by decide) (by decide),
   (loopStep_flag_consulted_only_on_eintr bluez 0 0 (fun _ => 0) 256 (readsDataWhileSigint 0)
      0).2 (Or.inl (by decide))⟩

/-! ## Lemmas on the deadline -/

theorem reportLoop_deadline_stops (D : HciDefs) (mem : Nat → Nat) (running_time : Nat)
    (end_time : Int) (time : Nat → Int) (hrt : running_time ≠ 0) :
    ∀ (c k fuel offset tick : Nat), c < 256 → c < fuel → k < c →
      (∀ j, j < k → check_stop_time end_time (time (tick + j)) = 0) →
      check_stop_time end_time (time (tick + k)) ≠ 0 →
      reportLoop D mem running_time end_time time fuel c offset tick
        = some ((recordsFrom D mem c offset).take (k + 1), tick + k + 1) := by
  intro c
  induction c with
  | zero =>
    intro k fuel offset tick _ _ hk
    omega
  | succ c ih =>
    intro k fuel offset tick hc hf hk hzero hfire
    obtain ⟨f, rfl⟩ : ∃ f, fuel = f + 1 := ⟨fuel - 1, by omega⟩
    have hdec : (c + 1 + 255) % 256 = c := by omega
    cases k with
    | zero =>
      have hfire0 : check_stop_time end_time (time tick) ≠ 0 := by simpa using hfire
      simp [reportLoop, recordsFrom, hrt, hfire0]
    | succ k =>
      have h0 : check_stop_time end_time (time tick) = 0 := by simpa using hzero 0 (by omega)
      have hrec := ih k f (reportStep D mem offset).2 (tick + 1) (by omega) (by omega)
        (by omega)
        (fun j hj => by
          have := hzero (j + 1) (by omega)
          rwa [show tick + (j + 1) = tick + 1 + j by omega] at this)
        (by rwa [show tick + (k + 1) = tick + 1 + k by omega] at hfire)
      simp only [reportLoop, hrt, hdec, h0, recordsFrom, hrec]
      simp only [if_neg hrt, List.take_succ_cons, ne_eq, not_true_eq_false, if_false,
        not_false_eq_true, if_true, Nat.add_eq_zero, one_ne_zero, and_false]
      rw [show tick + 1 + k + 1 = tick + (k + 1) + 1 by omega]
      exact if_pos hrt

theorem reportLoop_deadline_not_reached (D : HciDefs) (mem : Nat → Nat) (running_time : Nat)
    (end_time : Int) (time : Nat → Int) (hrt : running_time ≠ 0) :
    ∀ (c fuel offset tick : Nat), c < 256 → c < fuel →
      (∀ j, j < c → check_stop_time end_time (time (tick + j)) = 0) →
      reportLoop D mem running_time end_time time fuel c offset tick
        = some (recordsFrom D mem c offset, tick + c) := by
  intro c
  induction c with
  | zero =>
    intro fuel offset tick _ hf _
    obtain ⟨f, rfl⟩ : ∃ f, fuel = f + 1 := ⟨fuel - 1, by omega⟩
    simp [reportLoop, recordsFrom]
  | succ c ih =>
    intro fuel offset tick hc hf hzero
    obtain ⟨f, rfl⟩ : ∃ f, fuel = f + 1 := ⟨fuel - 1, by omega⟩
    have hdec : (c + 1 + 255) % 256 = c := by omega
    have h0 : check_stop_time end_time (time tick) = 0 := by simpa using hzero 0 (by omega)
    have hrec := ih f (reportStep D mem offset).2 (tick + 1) (by omega) (by omega)
      (fun j hj => by
        have := hzero (j + 1) (by omega)
        rwa [show tick + (j + 1) = tick + 1 + j by omega] at this)
    simp only [reportLoop, hrt, hdec, h0, recordsFrom, hrec]
    simp only [if_neg hrt, ne_eq, not_true_eq_false, if_false, not_false_eq_true, if_true,
      Nat.add_eq_zero, one_ne_zero, and_false]
    rw [show tick + 1 + c = tick + (c + 1) by omega]
    exact if_pos hrt

theorem reportLoop_ticks_no_deadline (D : HciDefs) (mem : Nat → Nat) (end_time : Int)
    (time : Nat → Int) :
    ∀ (fuel c offset tick : Nat) (rs : List Record) (t : Nat),
      reportLoop D mem 0 end_time time fuel c offset tick = some (rs, t) → t = tick := by
  intro fuel
  induction fuel with
  | zero =>
    intro c offset tick rs t h
    simp [reportLoop] at h
  | succ f ih =>
    intro c offset tick rs t h
    unfold reportLoop at h
    by_cases hc : c = 0
    · simp only [hc, if_true, Option.some.injEq, Prod.mk.injEq] at h
      exact h.2.symm
    · simp only [hc, if_false, ne_eq, not_true_eq_false] at h
      cases hr : reportLoop D mem 0 end_time time f ((c + 255) % 256)
          (reportStep D mem offset).2 tick with
      | none => simp [hr] at h
      | some res =>
        obtain ⟨rs1, t1⟩ := res
        simp only [hr, Option.some.injEq, Prod.mk.injEq] at h
        rw [← h.2]
        exact ih _ _ _ _ _ hr

theorem check_stop_time_eq_one (end_time now : Int) :
    (check_stop_time end_time now = 1 ↔ now ≠ -1 ∧ now ≥ end_time)
      ∧ (check_stop_time end_time now ≠ 1 → check_stop_time end_time now = 0) := by
  unfold check_stop_time
  by_cases h1 : now = -1
  · simp [h1]
  · by_cases h2 : now ≥ end_time
    · simp [h1, h2]
    · simp [h1, h2]

/-- C18.  `check_stop_time` returns 1 exactly when the clock reading is not
the failure value -1 and is at least `end_time`, and 0 otherwise.  With a
deadline set (`running_time ≠ 0`) it is called after every printed record and
once more after every successful `read`: for a batch of `c` reports, if the
calls after the first `k` records return 0 and the call after record `k + 1`
returns 1, exactly the first `k + 1` records of the batch are printed, in
order, and if the next call also returns 1 the receive loop is left by
`break`; if no call within the batch returns 1, all `c` records are printed
and `c + 1` clock calls are made; after any successful `read` the call of line
268 decides between `break` and the next `read`.  With no deadline set the clock is never
read and no iteration ends by `break`. -/
theorem deadline_checked_after_each_record_and_receive (D : HciDefs) (running_time : Nat)
    (end_time : Int) (time : Nat → Int) (fuel : Nat) (r : ReadResult) (tick : Nat)
    (hlen : (D.HCI_EVENT_HDR_SIZE : Int) ≤ r.len)
    (hsub : rd r.mem (D.HCI_EVENT_HDR_SIZE + 1 + D.subevent_off) = D.EVT_LE_ADVERTISING_REPORT)
    (hfuel : 256 ≤ fuel) :
    let c := rd r.mem (D.HCI_EVENT_HDR_SIZE + 1 + D.meta_data_off)
    let batch := recordsFrom D r.mem c (D.HCI_EVENT_HDR_SIZE + 1 + D.meta_data_off + 1)
    (∀ e now, (check_stop_time e now = 1 ↔ now ≠ -1 ∧ now ≥ e)
        ∧ (check_stop_time e now ≠ 1 → check_stop_time e now = 0))
      ∧ (running_time ≠ 0 → ∀ k, k < c →
          (∀ j, j < k → check_stop_time end_time (time (tick + j)) = 0) →
          check_stop_time end_time (time (tick + k)) = 1 →
          decodeStep D r.mem r.len running_time end_time time fuel tick
              = some (batch.take (k + 1), tick + k + 1)
            ∧ (batch.take (k + 1)).length = k + 1
            ∧ batch.take (k + 1) <+: batch
            ∧ (check_stop_time end_time (time (tick + k + 1)) = 1 →
                loopStep D running_time end_time time fuel r tick
                  = some (batch.take (k + 1), tick + k + 2, Next.break_loop)))
      ∧ (running_time ≠ 0 →
          (∀ j, j < c → check_stop_time end_time (time (tick + j)) = 0) →
          loopStep D running_time end_time time fuel r tick
            = some (batch, tick + c + 1,
                if check_stop_time end_time (time (tick + c)) = 1 then Next.break_loop
                else Next.next_read))
      ∧ (running_time ≠ 0 → ∀ (r' : ReadResult) (t t' : Nat) (rs : List Record), 0 ≤ r'.len →
          decodeStep D r'.mem r'.len running_time end_time time fuel t = some (rs, t') →
          loopStep D running_time end_time time fuel r' t
            = some (rs, t' + 1,
                if check_stop_time end_time (time t') = 1 then Next.break_loop
                else Next.next_read))
      ∧ (running_time = 0 →
          loopStep D running_time end_time time fuel r tick = some (batch, tick, Next.next_read))
      ∧ (∀ (r' : ReadResult) (f t t' : Nat) (rs : List Record) (n : Next),
          loopStep D 0 end_time time f r' t = some (rs, t', n) →
            n ≠ Next.break_loop ∧ t' = t) := by
  intro c batch
  have hc : c < 256 := rd_lt _ _
  have hge : r.len ≥ (D.HCI_EVENT_HDR_SIZE : Int) := hlen
  have hn : ¬ r.len < 0 := by omega
  have hdecode : ∀ res, reportLoop D r.mem running_time end_time time fuel c
        (D.HCI_EVENT_HDR_SIZE + 1 + D.meta_data_off + 1) tick = res →
      decodeStep D r.mem r.len running_time end_time time fuel tick = res := by
    intro res h
    simp only [decodeStep, hge, hsub, if_true]
    exact h
  refine ⟨check_stop_time_eq_one, ?_, ?_, ?_, ?_, ?_⟩
  · intro hrt k hk hzero hfire
    have hfire' : check_stop_time end_time (time (tick + k)) ≠ 0 := by
      rw [hfire]
      decide
    have hd := hdecode _ (reportLoop_deadline_stops D r.mem running_time end_time time hrt c k
      fuel _ tick hc (by omega) hk hzero hfire')
    refine ⟨hd, ?_, List.take_prefix _ _, ?_⟩
    · rw [List.length_take, recordsFrom_length]
      omega
    · intro hnext
      have hnext' : check_stop_time end_time (time (tick + k + 1)) ≠ 0 := by
        rw [hnext]
        decide
      simp [loopStep, hn, hd, hrt, hnext']
  · intro hrt hzero
    have hd := hdecode _ (reportLoop_deadline_not_reached D r.mem running_time end_time time hrt
      c fuel _ tick hc (by omega) hzero)
    by_cases hlast : check_stop_time end_time (time (tick + c)) = 1
    · have hlast' : check_stop_time end_time (time (tick + c)) ≠ 0 := by
        rw [hlast]
        decide
      simp [loopStep, hn, hd, hrt, hlast', hlast]
    · have hlast' := (check_stop_time_eq_one end_time (time (tick + c))).2 hlast
      simp [loopStep, hn, hd, hrt, hlast']
  · intro hrt r' t t' rs h0 hd
    have hn' : ¬ r'.len < 0 := by omega
    by_cases hlast : check_stop_time end_time (time t') = 1
    · have hlast' : check_stop_time end_time (time t') ≠ 0 := by
        rw [hlast]
        decide
      simp [loopStep, hn', hd, hrt, hlast', hlast]
    · have hlast' := (check_stop_time_eq_one end_time (time t')).2 hlast
      simp [loopStep, hn', hd, hrt, hlast']
  · intro hrt
    subst hrt
    have hd := hdecode _ (reportLoop_no_deadline D r.mem end_time time tick c fuel _ hc
      (by omega))
    simp [loopStep, hn, hd]
  · intro r' f t t' rs n h
    unfold loopStep at h
    by_cases hl : r'.len < 0
    · simp only [hl, if_true] at h
      split at h
      · simp only [Option.some.injEq, Prod.mk.injEq] at h
        exact ⟨by rw [← h.2.2]; decide, h.2.1.symm⟩
      · split at h
        · simp only [Option.some.injEq, Prod.mk.injEq] at h
          exact ⟨by rw [← h.2.2]; decide, h.2.1.symm⟩
        · simp only [Option.some.injEq, Prod.mk.injEq] at h
          exact ⟨by rw [← h.2.2]; decide, h.2.1.symm⟩
    · simp only [hl, if_false] at h
      cases hd : decodeStep D r'.mem r'.len 0 end_time time f t with
      | none => simp [hd] at h
      | some res =>
        obtain ⟨rs0, t0⟩ := res
        simp only [hd, ne_eq, not_true_eq_false, if_false, Option.some.injEq,
          Prod.mk.injEq] at h
        refine ⟨by rw [← h.2.2]; decide, ?_⟩
        rw [← h.2.1]
        unfold decodeStep at hd
        split at hd
        · simp only at hd
          split at hd
          · exact reportLoop_ticks_no_deadline D r'.mem end_time time f _ _ t _ _ hd
          · simp only [Option.some.injEq, Prod.mk.injEq] at hd
            exact hd.2.symm
        · simp only [Option.some.injEq, Prod.mk.injEq] at hd
          exact hd.2.symm

theorem deadline_checked_after_each_record_and_receive_witness :
    decodeStep bluez (memOf threeReports) 38 1 100 clockReaching 256 0
        = some ([⟨"06:05:04:03:02:01", -2⟩, ⟨"0F:0E:0D:0C:0B:0A", 10⟩], 2)
      ∧ loopStep bluez 1 100 clockReaching 256 ⟨38, 0, 0, memOf threeReports⟩ 0
        = some ([⟨"06:05:04:03:02:01", -2⟩, ⟨"0F:0E:0D:0C:0B:0A", 10⟩], 3, Next.break_loop) := by
  have h := (deadline_checked_after_each_record_and_receive bluez 1 100 clockReaching 256
    ⟨38, 0, 0, memOf threeReports⟩ 0 (by decide) (by decide) (by decide)).2.1 (by decide) 1
    (by decide)
    (fun j hj => by
      have hj0 : j = 0 := by omega
      subst hj0
      decide)
    (by decide)
  have hb : List.take (1 + 1) (recordsFrom bluez (memOf threeReports)
      (rd (memOf threeReports) (bluez.HCI_EVENT_HDR_SIZE + 1 + bluez.meta_data_off))
      (bluez.HCI_EVENT_HDR_SIZE + 1 + bluez.meta_data_off + 1))
      = [⟨"06:05:04:03:02:01", -2⟩, ⟨"0F:0E:0D:0C:0B:0A", 10⟩] := by decide
  have h1 := h.1
  have h2 := h.2.2.2 (by decide)
  simp only [hb] at h1 h2
  exact ⟨h1, h2⟩

/-! ## Lemmas on the bytes read -/

theorem reportStep_congr (D : HciDefs) (mem1 mem2 : Nat → Nat) (offset : Nat)
    (h : ∀ i, i < reportEnd D mem1 offset → mem1 i = mem2 i) :
    reportStep D mem1 offset = reportStep D mem2 offset := by
  have hrd : ∀ i, i < reportEnd D mem1 offset → rd mem1 i = rd mem2 i := fun i hi => by
    unfold rd
    rw [h i hi]
  have hlen : rd mem1 (offset + D.length_off) = rd mem2 (offset + D.length_off) :=
    hrd _ (by unfold reportEnd; omega)
  have hrssi : rd mem1 (offset + D.data_off + rd mem1 (offset + D.length_off))
      = rd mem2 (offset + D.data_off + rd mem1 (offset + D.length_off)) :=
    hrd _ (by unfold reportEnd; omega)
  have ha : ∀ j, j < 6 → rd mem1 (offset + D.bdaddr_off + j) = rd mem2 (offset + D.bdaddr_off + j) :=
    fun j hj => hrd _ (by unfold reportEnd; omega)
  have ha0 := ha 0 (by omega)
  simp only [Nat.add_zero] at ha0
  simp only [reportStep, ← hlen, ← hrssi, ← ha0, ← ha 1 (by omega), ← ha 2 (by omega),
    ← ha 3 (by omega), ← ha 4 (by omega), ← ha 5 (by omega)]

theorem reportLoop_congr (D : HciDefs) (mem1 mem2 : Nat → Nat) (running_time : Nat)
    (end_time : Int) (time : Nat → Int) :
    ∀ (fuel c offset tick : Nat), c < 256 →
      (∀ i, i < readsEnd D mem1 c offset → mem1 i = mem2 i) →
      reportLoop D mem1 running_time end_time time fuel c offset tick
        = reportLoop D mem2 running_time end_time time fuel c offset tick := by
  intro fuel
  induction fuel with
  | zero =>
    intro c offset tick _ _
    rfl
  | succ f ih =>
    intro c offset tick hc h
    cases c with
    | zero => simp [reportLoop]
    | succ n =>
      have hdec : (n + 1 + 255) % 256 = n := by omega
      have hstep : reportStep D mem1 offset = reportStep D mem2 offset :=
        reportStep_congr D mem1 mem2 offset (fun i hi => h i (by
          simp only [readsEnd]
          omega))
      have hrest : ∀ t, reportLoop D mem1 running_time end_time time f n
            (reportStep D mem1 offset).2 t
          = reportLoop D mem2 running_time end_time time f n (reportStep D mem1 offset).2 t :=
        fun t => ih n _ t (by omega) (fun i hi => h i (by
          simp only [readsEnd]
          omega))
      simp only [reportLoop, hdec, ← hstep, hrest]

/-- C19 (counterexample).  Two runs of the decoding step that receive the
same 14 bytes, in buffers that differ only at index 14, print different
records. -/
theorem decodeStep_depends_on_bytes_past_len :
    (∀ i, i < 14 → memOf truncatedReport i = memOf truncatedReportOther i)
      ∧ decodeStep bluez (memOf truncatedReport) 14 0 0 (fun _ => 0) 256 0
          = some ([⟨"06:05:04:03:02:01", 127⟩], 0)
      ∧ decodeStep bluez (memOf truncatedReportOther) 14 0 0 (fun _ => 0) 256 0
          = some ([⟨"06:05:04:03:02:01", 5⟩], 0)
      ∧ decodeStep bluez (memOf truncatedReport) 14 0 0 (fun _ => 0) 256 0
          ≠ decodeStep bluez (memOf truncatedReportOther) 14 0 0 (fun _ => 0) 256 0 := by
  have h1 : decodeStep bluez (memOf truncatedReport) 14 0 0 (fun _ => 0) 256 0
      = some ([⟨"06:05:04:03:02:01", 127⟩], 0) := by decide
  have h2 : decodeStep bluez (memOf truncatedReportOther) 14 0 0 (fun _ => 0) 256 0
      = some ([⟨"06:05:04:03:02:01", 5⟩], 0) := by decide
  refine ⟨by decide, h1, h2, ?_⟩
  rw [h1, h2]
  decide

/-- C19 (amended).  Two runs of the decoding step that receive the same
number of bytes `len` and the same first `len` bytes print the same records
when `len` is smaller than `HCI_EVENT_HDR_SIZE`, or when every byte that the
count byte and the length bytes make the step read (subevent byte, count byte,
address, length and signal-strength bytes of each report) lies inside the
`len` received bytes. -/
theorem decodeStep_same_on_same_received_bytes (D : HciDefs) (mem1 mem2 : Nat → Nat)
    (len : Int) (running_time : Nat) (end_time : Int) (time : Nat → Int) (fuel tick : Nat)
    (hfit : len < (D.HCI_EVENT_HDR_SIZE : Int) ∨ ((extent D mem1 : Nat) : Int) ≤ len)
    (hagree : ∀ i : Nat, (i : Int) < len → mem1 i = mem2 i) :
    decodeStep D mem1 len running_time end_time time fuel tick
      = decodeStep D mem2 len running_time end_time time fuel tick := by
  rcases hfit with hshort | hfit
  · have h' : ¬ (len ≥ (D.HCI_EVENT_HDR_SIZE : Int)) := by omega
    simp [decodeStep, h']
  · have hag : ∀ i, i < extent D mem1 → mem1 i = mem2 i := fun i hi => hagree i (by omega)
    have hsub : rd mem1 (D.HCI_EVENT_HDR_SIZE + 1 + D.subevent_off)
        = rd mem2 (D.HCI_EVENT_HDR_SIZE + 1 + D.subevent_off) := by
      unfold rd
      rw [hag _ (by unfold extent; omega)]
    have hcnt : rd mem1 (D.HCI_EVENT_HDR_SIZE + 1 + D.meta_data_off)
        = rd mem2 (D.HCI_EVENT_HDR_SIZE + 1 + D.meta_data_off) := by
      unfold rd
      rw [hag _ (by unfold extent; omega)]
    have hloop := reportLoop_congr D mem1 mem2 running_time end_time time fuel
      (rd mem1 (D.HCI_EVENT_HDR_SIZE + 1 + D.meta_data_off))
      (D.HCI_EVENT_HDR_SIZE + 1 + D.meta_data_off + 1) tick (rd_lt _ _)
      (fun i hi => hag i (by unfold extent; omega))
    simp only [decodeStep, ← hsub, ← hcnt, hloop]

theorem decodeStep_same_on_same_received_bytes_witness :
    decodeStep bluez (memOf oneReport) 16 0 0 (fun _ => 0) 256 0
      = decodeStep bluez (memOf oneReportOther) 16 0 0 (fun _ => 0) 256 0 :=
  decodeStep_same_on_same_received_bytes bluez (memOf oneReport) (memOf oneReportOther) 16 0 0
    (fun _ => 0) 256 0 (Or.inr (by decide))
    (fun i hi => by
      have hi' : i < 16 := by omega
      interval_cases i <;> rfl)

/-- C20 (fails on the code).  The value of `atoi` is converted to `uint8_t`
before the test `<= 0`: `-t -1` is accepted with a running time of 255
seconds, `-t 256` is rejected with the message although it is positive, and
`-t 300` is accepted with a running time of 44 seconds, so that the deadline
is the start time plus 44; the option is rejected exactly when the value is a
multiple of 256. -/
theorem option_t_wraps_to_eight_bits :
    option_t (-1) = OptionT.accepted 255
      ∧ option_t 256 = OptionT.rejected "Program running time may not be zero or negative" 1
      ∧ option_t 300 = OptionT.accepted 44
      ∧ main_end_time 44 1000 = Except.ok 1044
      ∧ main_end_time 255 1000 = Except.ok 1255
      ∧ (∀ n : Int, option_t n
            = OptionT.rejected "Program running time may not be zero or negative" 1
          ↔ n % 256 = 0) := by
  refine ⟨by decide, by decide, by decide, rfl, rfl, ?_⟩
  intro n
  unfold option_t
  have h0 : 0 ≤ n % 256 := Int.emod_nonneg n (by decide)
  have hcast : (((n % 256).toNat : Nat) : Int) = n % 256 := Int.toNat_of_nonneg h0
  simp only [hcast]
  constructor
  · intro h
    by_contra hne
    have hpos : ¬ (n % 256 ≤ 0) := by omega
    simp [hpos] at h
  · intro h
    simp [h]

end BleBeaconScan
